import Mathlib

/-!
Shallow embedding of the SubTrace OSINT pipeline (`dns_gui_tool.py`).

The embedding models:
- text files as `String`s held in a filesystem map `String → Option String`;
- Python `str.splitlines` on newline-separated text as `splitlines`;
- the event history of a run (directory creations, process launches, file
  writes) as a `trace` of `Event`s, so ordering claims can be stated;
- `subprocess.run(..., check=False)` as `run_command` over a `ProcEnv` that
  assigns to each command line either `none` (executable not found, which in
  Python raises `FileNotFoundError` even with `check=False`) or the process
  behaviour: an exit code (ignored by `check=False`), the combined
  stdout/stderr text, and the files the external process itself writes;
- fallible, stateful code in the monad `M α = St → St × Except OSErr α`
  (exceptions propagate but filesystem effects already performed persist,
  exactly as on a real filesystem).
-/

set_option autoImplicit false

namespace SubTrace

/-! ### Text utilities -/

/-- Auxiliary loop for `splitlines`: `acc` holds the reversed characters of
the current (unfinished) line. -/
def splitAux (acc : List Char) : List Char → List String
  | [] => if acc = [] then [] else [String.mk acc.reverse]
  | c :: rest =>
    if c = '\n' then String.mk acc.reverse :: splitAux [] rest
    else splitAux (c :: acc) rest

/-- Python `str.splitlines` restricted to newline-separated text: split on
`'\n'`, with no empty final line produced by a trailing newline
(`"a\nb\n".splitlines() == ["a", "b"]`, `"".splitlines() == []`). -/
def splitlines (s : String) : List String :=
  splitAux [] s.data

/-- Join lines, terminating each with a newline — the shape produced by the
`dst.write(f"LINE\n")` loop of `combine_subdomains`. -/
def unlines (ls : List String) : String :=
  String.join (ls.map (fun l => l ++ "\n"))

/-- The dedup loop of `combine_subdomains`: emit each line not yet in `seen`,
adding it to `seen`; lines already seen are skipped. -/
def dedupFirstAux (seen : List String) : List String → List String
  | [] => []
  | l :: ls =>
    if l ∈ seen then dedupFirstAux seen ls
    else l :: dedupFirstAux (l :: seen) ls

/-- First-occurrence deduplication starting from an empty seen set. -/
def dedupFirst (ls : List String) : List String :=
  dedupFirstAux [] ls

/-- Lines contributed by an optional file: a missing file contributes zero
lines (the `if not path.exists(): continue` branch). -/
def linesOpt : Option String → List String
  | some t => splitlines t
  | none => []

/-! ### Filesystem state and event trace -/

/-- Observable events of a run, recorded in order. `writeEv` is a file write
performed by the orchestrator itself (`write_text` / the merge loop);
`toolWriteEv` is a file written by an external process during its execution
(e.g. `amass ... -o FILE`). -/
inductive Event where
  | mkdirEv (path : String)
  | execEv (cmd : List String)
  | writeEv (path : String)
  | toolWriteEv (path : String)
deriving DecidableEq

/-- Machine state: file contents, existing directories, and the event trace
(chronological order). -/
structure St where
  files : String → Option String
  dirs : String → Bool
  trace : List Event

/-- A state with no files, no directories and an empty trace. -/
def emptySt : St :=
  { files := fun _ => none, dirs := fun _ => false, trace := [] }

/-- Orchestrator-side file write (`Path.write_text` / `open(..., "w")`):
creates or overwrites the file. -/
def St.writeFile (st : St) (p c : String) : St :=
  { st with
    files := fun q => if q = p then some c else st.files q
    trace := st.trace ++ [Event.writeEv p] }

/-- File write performed by an external tool while it runs. -/
def St.toolWriteFile (st : St) (p c : String) : St :=
  { st with
    files := fun q => if q = p then some c else st.files q
    trace := st.trace ++ [Event.toolWriteEv p] }

/-- Directory creation with `exist_ok=True` semantics: never fails, a
pre-existing directory is reused. -/
def St.mkdir (st : St) (p : String) : St :=
  { st with
    dirs := fun q => if q = p then true else st.dirs q
    trace := st.trace ++ [Event.mkdirEv p] }

/-- Record that a command line was handed to `subprocess.run`. -/
def St.execNote (st : St) (cmd : List String) : St :=
  { st with trace := st.trace ++ [Event.execEv cmd] }

/-! ### The effect monad -/

/-- Errors surfaced to Python as exceptions. `fileNotFound` covers both a
missing executable (`FileNotFoundError` from `subprocess.run`) and a missing
file in `Path.read_text`. -/
inductive OSErr where
  | fileNotFound (what : String)
deriving DecidableEq

/-- State-and-exception monad: an exception aborts the computation but the
state reached so far (files already written, events already logged) persists. -/
def M (α : Type) : Type := St → St × Except OSErr α

instance : Monad M where
  pure a := fun st => (st, Except.ok a)
  bind x f := fun st =>
    match x st with
    | (st1, Except.ok a) => f a st1
    | (st1, Except.error e) => (st1, Except.error e)

/-- Raise an exception. -/
def M.raiseErr {α : Type} (e : OSErr) : M α := fun st => (st, Except.error e)

/-- Write a file (orchestrator side). -/
def M.writeFile (p c : String) : M Unit := fun st => (st.writeFile p c, Except.ok ())

/-- Create a directory (with `exist_ok=True` / `parents=True` semantics). -/
def M.mkdir (p : String) : M Unit := fun st => (st.mkdir p, Except.ok ())

/-! ### Process execution -/

/-- Behaviour of one external process invocation: its exit code, its combined
stdout/stderr text, and the files it writes (in order) while running. -/
structure ExecBehavior where
  exitCode : Int
  output : String
  writes : List (String × String)

/-- The process environment assigns to each command line either `none` (the
executable cannot be found) or the behaviour of running it. An external tool
is modelled as a deterministic function of its command line. -/
structure ProcEnv where
  find : List String → Option ExecBehavior

/-- Apply the file writes an external process performs, in order. -/
def St.applyToolWrites (st : St) (ws : List (String × String)) : St :=
  ws.foldl (fun s pc => s.toolWriteFile pc.1 pc.2) st

/-- Embedding of `run_command`: `subprocess.run(command, text=True,
stdout=PIPE, stderr=STDOUT, check=False)` followed by `return result.stdout`.
With `check=False` the exit code is ignored — a non-zero status still returns
the captured text — but a missing executable raises `FileNotFoundError`. -/
def run_command (env : ProcEnv) (command : List String) : M String := fun st =>
  let st1 := st.execNote command
  match env.find command with
  | none => (st1, Except.error (OSErr.fileNotFound (command.headD "")))
  | some b => (st1.applyToolWrites b.writes, Except.ok b.output)

/-! ### Tool adapters -/

/-- Embedding of `run_amass`: `amass enum -d DOMAIN -o OUT`; the returned
location is the output path, with no existence check. -/
def run_amass (env : ProcEnv) (domain output_dir : String) : M String := do
  let out_file := output_dir ++ "/amass.txt"
  let _ ← run_command env ["amass", "enum", "-d", domain, "-o", out_file]
  pure out_file

/-- Embedding of `run_dnsrecon`: capture the tool's output and write it to
`dnsrecon.txt` ourselves. -/
def run_dnsrecon (env : ProcEnv) (domain output_dir : String) : M String := do
  let out_file := output_dir ++ "/dnsrecon.txt"
  let output ← run_command env ["dnsrecon", "-d", domain]
  M.writeFile out_file output
  pure out_file

/-- Embedding of `run_subfinder`: `subfinder -d DOMAIN -o OUT`. -/
def run_subfinder (env : ProcEnv) (domain output_dir : String) : M String := do
  let out_file := output_dir ++ "/subfinder.txt"
  let _ ← run_command env ["subfinder", "-d", domain, "-o", out_file]
  pure out_file

/-- Embedding of `combine_subdomains`. The Python loop walks
`(amass.txt, subfinder.txt)`, skips a path that does not exist, and writes
each not-yet-seen line (plus a newline) to `subdominios.txt` opened with
mode `"w"`; with one `seen` set shared across both inputs, the final file
content is exactly the first-occurrence dedup of the concatenated line
lists. The file is created (possibly empty) even when both inputs are
missing. -/
def combine_subdomains (st : St) (output_dir : String) : St :=
  let amass := output_dir ++ "/amass.txt"
  let subfinder := output_dir ++ "/subfinder.txt"
  let out_file := output_dir ++ "/subdominios.txt"
  st.writeFile out_file
    (unlines (dedupFirst (linesOpt (st.files amass) ++ linesOpt (st.files subfinder))))

/-- Monadic wrapper of `combine_subdomains` returning the output path, as the
Python function does. -/
def combineM (output_dir : String) : M String := fun st =>
  (combine_subdomains st output_dir, Except.ok (output_dir ++ "/subdominios.txt"))

/-- Embedding of `run_httpx`: `httpx -l LIST -o OUT`. -/
def run_httpx (env : ProcEnv) (subdomains_file output_dir : String) : M String := do
  let out_file := output_dir ++ "/vivos.txt"
  let _ ← run_command env ["httpx", "-l", subdomains_file, "-o", out_file]
  pure out_file

/-- Embedding of `run_gowitness`: create the screenshots directory, run the
tool, and write a textual summary log combining the destination directory and
the captured output. -/
def run_gowitness (env : ProcEnv) (live_hosts_file output_dir : String) : M String := do
  let screenshots := output_dir ++ "/gowitness/shots"
  M.mkdir screenshots
  let output ← run_command env
    ["gowitness", "file", "-f", live_hosts_file, "--destination", screenshots]
  let log_file := output_dir ++ "/gowitness.txt"
  M.writeFile log_file
    ("Resultados de gowitness\n\n" ++ "Capturas almacenadas en: " ++ screenshots
      ++ "\n\n" ++ "Salida de la herramienta:\n" ++ output)
  pure log_file

/-- Embedding of `run_nmap`: `nmap -iL LIST -oN OUT`. -/
def run_nmap (env : ProcEnv) (live_hosts_file output_dir : String) : M String := do
  let out_file := output_dir ++ "/nmap.txt"
  let _ ← run_command env ["nmap", "-iL", live_hosts_file, "-oN", out_file]
  pure out_file

/-! ### Report generation -/

/-- HTML produced by the `jinja2.Template` branch of `generate_report`, with
the template's literal whitespace (a triple-quoted string indented by twelve
spaces; `jinja2` defaults keep the text around block tags verbatim). The
`outputs` list carries `(tool name, file content)` pairs in mapping order. -/
def jinjaHtml (domain : String) (outputs : List (String × String)) : String :=
  "\n            <html>\n            <head><meta charset=\"utf-8\"><title>SubTrace Report</title></head>\n            <body>\n            <h1>Reconocimiento para "
  ++ domain ++ "</h1>\n            "
  ++ String.join (outputs.map (fun nc =>
      "\n            <h2>" ++ nc.1 ++ "</h2>\n            <pre>" ++ nc.2 ++ "</pre>\n            "))
  ++ "\n            </body>\n            </html>\n            "

/-- HTML produced by the manual fallback branch of `generate_report` (used
when `jinja2` is unavailable): the same document assembled from f-strings
with no whitespace between tags. -/
def manualHtml (domain : String) (outputs : List (String × String)) : String :=
  "<html><head><meta charset=\"utf-8\"><title>SubTrace Report" ++ "</title></head><body>"
  ++ ("<h1>Reconocimiento para " ++ domain ++ "</h1>")
  ++ String.join (outputs.map (fun nc =>
      "<h2>" ++ nc.1 ++ "</h2><pre>" ++ nc.2 ++ "</pre>"))
  ++ "</body></html>"

/-- Resolve the `(name, path)` mapping to `(name, content)` pairs by reading
each path in mapping order. A missing file raises `FileNotFoundError`
(`Path.read_text`), reported for the first missing path — in the source these
reads happen while the HTML body is rendered, before `html_path.write_text`
runs, so an error here precedes any write. -/
def resolveOuts (files : String → Option String) :
    List (String × String) → Except OSErr (List (String × String))
  | [] => Except.ok []
  | (n, p) :: rest =>
    match files p with
    | none => Except.error (OSErr.fileNotFound p)
    | some c =>
      match resolveOuts files rest with
      | Except.ok tail => Except.ok ((n, c) :: tail)
      | Except.error e => Except.error e

/-- Availability of the `pdfkit` converter: `absent` models `pdfkit is None`
(the call `pdfkit.from_file` then raises `AttributeError`), `failing` models a
converter that raises (e.g. `wkhtmltopdf` missing), `working conv` models a
successful conversion writing `conv html` to the PDF path. -/
inductive PdfKit where
  | absent
  | failing
  | working (conv : String → String)

/-- Embedding of `generate_report`: render the HTML (jinja2 branch when the
template engine is available, manual branch otherwise), write it to
`<domain>_reporte.html`, then try the PDF conversion inside
`try: ... except Exception:`; on any failure — including `pdfkit is None` —
write the fixed placeholder string to `<domain>_reporte.pdf`. The converter
reads the HTML file just written, so a working converter produces
`conv html_content`. Returns the HTML path. -/
def generate_report (pk : PdfKit) (tmplAvail : Bool) (domain output_dir : String)
    (tool_outputs : List (String × String)) : M String := fun st =>
  match resolveOuts st.files tool_outputs with
  | Except.error e => (st, Except.error e)
  | Except.ok pairs =>
    let html_content := if tmplAvail then jinjaHtml domain pairs else manualHtml domain pairs
    let html_path := output_dir ++ "/" ++ domain ++ "_reporte.html"
    let pdf_path := output_dir ++ "/" ++ domain ++ "_reporte.pdf"
    let st1 := st.writeFile html_path html_content
    let st2 :=
      match pk with
      | PdfKit.working conv => st1.writeFile pdf_path (conv html_content)
      | _ => st1.writeFile pdf_path "PDF generation failed"
    (st2, Except.ok html_path)

/-! ### Pipeline orchestrator -/

/-- The per-run output directory `Path(f"DOMAIN-recon")`. -/
def outDirOf (domain : String) : String := domain ++ "-recon"

/-- Embedding of `run_all`: create the output directory (`exist_ok=True`),
run the six tool adapters and the merge step in the fixed order, accumulate
the `(name, path)` result mapping in insertion order, and generate the
report. The Python function returns `None`; the embedding returns the result
mapping so its keys can be specified. -/
def run_all (env : ProcEnv) (pk : PdfKit) (tmplAvail : Bool) (domain : String) :
    M (List (String × String)) := do
  let output_dir := outDirOf domain
  M.mkdir output_dir
  let amass ← run_amass env domain output_dir
  let dnsrecon ← run_dnsrecon env domain output_dir
  let subfinder ← run_subfinder env domain output_dir
  let combined ← combineM output_dir
  let vivos ← run_httpx env combined output_dir
  let gowitness ← run_gowitness env vivos output_dir
  let nmap ← run_nmap env vivos output_dir
  let results := [("amass", amass), ("dnsrecon", dnsrecon), ("subfinder", subfinder),
    ("subdominios", combined), ("vivos", vivos), ("gowitness", gowitness), ("nmap", nmap)]
  let _ ← generate_report pk tmplAvail domain output_dir results
  pure results

/-! ### Specification-side vocabulary

Definitions below are not translations of source code; they are the
vocabulary in which the claims are stated (document decompositions, ordered
occurrence, path containment, well-behaved external tools). -/

/-- The page heading of the report. -/
def h1tag (domain : String) : String := "<h1>Reconocimiento para " ++ domain ++ "</h1>"

/-- A subsection title. -/
def h2tag (name : String) : String := "<h2>" ++ name ++ "</h2>"

/-- A verbatim-content block. -/
def preTag (content : String) : String := "<pre>" ++ content ++ "</pre>"

/-- Abstract subsection list: one `<h2>` title and one `<pre>` body per
entry, in order, glued with the separators `sep1`/`sep2`/`sep3`. -/
def sectionsHtml (sep1 sep2 sep3 : String) (outputs : List (String × String)) : String :=
  String.join (outputs.map (fun nc => sep1 ++ h2tag nc.1 ++ sep2 ++ preTag nc.2 ++ sep3))

/-- A string consisting only of spaces and newlines (insignificant HTML
whitespace outside `<pre>`). -/
def onlyWs (s : String) : Bool :=
  s.data.all (fun c => c = ' ' || c = '\n')

/-- The fragments `ts` all occur in `s`, disjointly and in the given order. -/
def containsInOrder (s : String) : List String → Prop
  | [] => True
  | t :: ts => ∃ a b, s = a ++ (t ++ b) ∧ containsInOrder b ts

/-- The path `p` lies strictly under the directory `dir`. -/
def isUnder (dir p : String) : Prop := ∃ t, p = dir ++ "/" ++ t

/-! ### Named artifact paths and command lines of a run -/

/-- Artifact path `amass.txt` of the run for `d`. -/
def amassPath (d : String) : String := outDirOf d ++ "/amass.txt"

/-- Artifact path `dnsrecon.txt` of the run for `d`. -/
def dnsreconPath (d : String) : String := outDirOf d ++ "/dnsrecon.txt"

/-- Artifact path `subfinder.txt` of the run for `d`. -/
def subfinderPath (d : String) : String := outDirOf d ++ "/subfinder.txt"

/-- Artifact path `subdominios.txt` (merge output) of the run for `d`. -/
def subdomPath (d : String) : String := outDirOf d ++ "/subdominios.txt"

/-- Artifact path `vivos.txt` (live hosts) of the run for `d`. -/
def vivosPath (d : String) : String := outDirOf d ++ "/vivos.txt"

/-- The screenshots directory `gowitness/shots` of the run for `d`. -/
def shotsDir (d : String) : String := outDirOf d ++ "/gowitness/shots"

/-- Artifact path `gowitness.txt` (screenshot summary log) of the run for `d`. -/
def gowitnessLogPath (d : String) : String := outDirOf d ++ "/gowitness.txt"

/-- Artifact path `nmap.txt` of the run for `d`. -/
def nmapPath (d : String) : String := outDirOf d ++ "/nmap.txt"

/-- Artifact path `<domain>_reporte.html` of the run for `d`. -/
def htmlPath (d : String) : String := outDirOf d ++ "/" ++ d ++ "_reporte.html"

/-- Artifact path `<domain>_reporte.pdf` of the run for `d`. -/
def pdfPath (d : String) : String := outDirOf d ++ "/" ++ d ++ "_reporte.pdf"

/-- The amass command line issued by the run for `d`. -/
def amassCmd (d : String) : List String :=
  ["amass", "enum", "-d", d, "-o", outDirOf d ++ "/amass.txt"]

/-- The dnsrecon command line issued by the run for `d`. -/
def dnsreconCmd (d : String) : List String := ["dnsrecon", "-d", d]

/-- The subfinder command line issued by the run for `d`. -/
def subfinderCmd (d : String) : List String :=
  ["subfinder", "-d", d, "-o", outDirOf d ++ "/subfinder.txt"]

/-- The httpx command line issued by the run for `d`. -/
def httpxCmd (d : String) : List String :=
  ["httpx", "-l", outDirOf d ++ "/subdominios.txt", "-o", outDirOf d ++ "/vivos.txt"]

/-- The gowitness command line issued by the run for `d`. -/
def gowitnessCmd (d : String) : List String :=
  ["gowitness", "file", "-f", outDirOf d ++ "/vivos.txt", "--destination",
    outDirOf d ++ "/gowitness/shots"]

/-- The nmap command line issued by the run for `d`. -/
def nmapCmd (d : String) : List String :=
  ["nmap", "-iL", outDirOf d ++ "/vivos.txt", "-oN", outDirOf d ++ "/nmap.txt"]

/-- The summary log `run_gowitness` writes, combining the screenshots
directory and the tool's captured output. -/
def gowitnessLog (d output : String) : String :=
  "Resultados de gowitness\n\n" ++ "Capturas almacenadas en: " ++ shotsDir d
    ++ "\n\n" ++ "Salida de la herramienta:\n" ++ output

/-- The result mapping `run_all` accumulates, in insertion order. -/
def resultsList (d : String) : List (String × String) :=
  [("amass", amassPath d), ("dnsrecon", dnsreconPath d), ("subfinder", subfinderPath d),
    ("subdominios", subdomPath d), ("vivos", vivosPath d),
    ("gowitness", gowitnessLogPath d), ("nmap", nmapPath d)]

/-- The content `generate_report` leaves at the PDF location. -/
def pdfContent (pk : PdfKit) (tmplAvail : Bool) (d : String)
    (pairs : List (String × String)) : String :=
  match pk with
  | PdfKit.working conv =>
    conv (if tmplAvail = true then jinjaHtml d pairs else manualHtml d pairs)
  | _ => "PDF generation failed"

/-- The state reached by the tool phase of `run_all` (everything before
`generate_report`) when the six tools behave as `b1`–`b6`: the explicit
composition of the mkdir, the six process executions with their writes, the
two captured-output writes and the merge write, in program order. -/
def toolPhaseSt (b1 b2 b3 b4 b5 b6 : ExecBehavior) (d : String) (st : St) : St :=
  let dir := outDirOf d
  let s1 := ((st.mkdir dir).execNote (amassCmd d)).applyToolWrites b1.writes
  let s2 := (((s1.execNote (dnsreconCmd d)).applyToolWrites b2.writes).writeFile
    (dir ++ "/dnsrecon.txt") b2.output)
  let s3 := (s2.execNote (subfinderCmd d)).applyToolWrites b3.writes
  let s4 := combine_subdomains s3 dir
  let s5 := (s4.execNote (httpxCmd d)).applyToolWrites b4.writes
  let s6 := ((((s5.mkdir (dir ++ "/gowitness/shots")).execNote
    (gowitnessCmd d)).applyToolWrites b5.writes).writeFile (dir ++ "/gowitness.txt")
    (gowitnessLog d b5.output))
  (s6.execNote (nmapCmd d)).applyToolWrites b6.writes

/-- A process environment is well behaved for the run on `d` when every file
an external tool writes during that run is the output location the pipeline
passed it (or, for gowitness, lies under its destination directory) — and
dnsrecon, which is given no output flag, writes nothing. -/
def envWellBehavedFor (env : ProcEnv) (d : String) : Prop :=
  (∀ b, env.find (amassCmd d) = some b →
    ∀ pc ∈ b.writes, pc.1 = amassPath d ∨ isUnder (amassPath d) pc.1)
  ∧ (∀ b, env.find (dnsreconCmd d) = some b → b.writes = [])
  ∧ (∀ b, env.find (subfinderCmd d) = some b →
    ∀ pc ∈ b.writes, pc.1 = subfinderPath d ∨ isUnder (subfinderPath d) pc.1)
  ∧ (∀ b, env.find (httpxCmd d) = some b →
    ∀ pc ∈ b.writes, pc.1 = vivosPath d ∨ isUnder (vivosPath d) pc.1)
  ∧ (∀ b, env.find (gowitnessCmd d) = some b →
    ∀ pc ∈ b.writes, pc.1 = shotsDir d ∨ isUnder (shotsDir d) pc.1)
  ∧ (∀ b, env.find (nmapCmd d) = some b →
    ∀ pc ∈ b.writes, pc.1 = nmapPath d ∨ isUnder (nmapPath d) pc.1)

/-- The content of the chronologically last write to `p` in the write list
`ws` (later entries take precedence), if any. -/
def lastWrite : List (String × String) → String → Option String
  | [], _ => none
  | pc :: rest, p => (lastWrite rest p).or (if pc.1 = p then some pc.2 else none)

/-- The whitespace run the jinja template places between tags: a newline and
the twelve-space indentation of the template literal. -/
def jinjaInd : String := "\n            "

/-- The fixed document chrome the jinja branch emits before the heading. -/
def jinjaChromeA : String := "\n            <html>\n            <head><meta charset=\"utf-8\"><title>SubTrace Report</title></head>\n            <body>\n            "

/-- The fixed document chrome the jinja branch emits after the sections. -/
def jinjaChromeB : String := "\n            </body>\n            </html>\n            "

/-- The fixed document chrome the manual branch emits before the heading. -/
def manualChromeA : String := "<html><head><meta charset=\"utf-8\"><title>SubTrace Report</title></head><body>"

/-- The fixed document chrome the manual branch emits after the sections. -/
def manualChromeB : String := "</body></html>"

/-! ### Concrete inputs used by the witnesses -/

/-- A state holding `amass.txt` with lines `[a, b, a]` and `subfinder.txt`
with lines `[b, c]` under the directory `out`. -/
def mergeDemoSt : St :=
  { files := fun q =>
      if q = "out/amass.txt" then some "a\nb\na\n"
      else if q = "out/subfinder.txt" then some "b\nc\n"
      else none
    dirs := fun _ => false
    trace := [] }

/-- An environment in which no executable can be found. -/
def noExecEnv : ProcEnv := ⟨fun _ => none⟩

/-- An environment whose every tool exits with status 2 after printing some
text and writing nothing. -/
def failEnv : ProcEnv := ⟨fun _ => some ⟨2, "partial output", []⟩⟩

/-- An environment giving each of the six tools a successful, well-behaved
behaviour for the domain `example.com`: the self-writing tools write their
designated output files, the captured-output tools print text, and httpx
exits non-zero while still writing its output. -/
def demoEnv : ProcEnv := ⟨fun cmd =>
  if cmd = amassCmd "example.com" then
    some ⟨0, "", [(amassPath "example.com", "a.example.com\nb.example.com\n")]⟩
  else if cmd = dnsreconCmd "example.com" then some ⟨0, "dns info", []⟩
  else if cmd = subfinderCmd "example.com" then
    some ⟨0, "", [(subfinderPath "example.com", "b.example.com\nc.example.com\n")]⟩
  else if cmd = httpxCmd "example.com" then
    some ⟨1, "", [(vivosPath "example.com", "https://a.example.com\n")]⟩
  else if cmd = gowitnessCmd "example.com" then some ⟨0, "shots ok", []⟩
  else if cmd = nmapCmd "example.com" then some ⟨0, "", [(nmapPath "example.com", "scan\n")]⟩
  else none⟩

/-! ### Basic state lemmas -/

@[simp] theorem St.writeFile_files (st : St) (p c q : String) :
    (st.writeFile p c).files q = if q = p then some c else st.files q := rfl

@[simp] theorem St.writeFile_dirs (st : St) (p c : String) :
    (st.writeFile p c).dirs = st.dirs := rfl

@[simp] theorem St.writeFile_trace (st : St) (p c : String) :
    (st.writeFile p c).trace = st.trace ++ [Event.writeEv p] := rfl

@[simp] theorem St.toolWriteFile_files (st : St) (p c q : String) :
    (st.toolWriteFile p c).files q = if q = p then some c else st.files q := rfl

@[simp] theorem St.toolWriteFile_dirs (st : St) (p c : String) :
    (st.toolWriteFile p c).dirs = st.dirs := rfl

@[simp] theorem St.toolWriteFile_trace (st : St) (p c : String) :
    (st.toolWriteFile p c).trace = st.trace ++ [Event.toolWriteEv p] := rfl

@[simp] theorem St.mkdir_files (st : St) (p : String) :
    (st.mkdir p).files = st.files := rfl

@[simp] theorem St.mkdir_dirs (st : St) (p q : String) :
    (st.mkdir p).dirs q = if q = p then true else st.dirs q := rfl

@[simp] theorem St.mkdir_trace (st : St) (p : String) :
    (st.mkdir p).trace = st.trace ++ [Event.mkdirEv p] := rfl

@[simp] theorem St.execNote_files (st : St) (cmd : List String) :
    (st.execNote cmd).files = st.files := rfl

@[simp] theorem St.execNote_dirs (st : St) (cmd : List String) :
    (st.execNote cmd).dirs = st.dirs := rfl

@[simp] theorem St.execNote_trace (st : St) (cmd : List String) :
    (st.execNote cmd).trace = st.trace ++ [Event.execEv cmd] := rfl

/-! ### Last write of an external process -/

theorem applyToolWrites_files (ws : List (String × String)) (st : St) (p : String) :
    (st.applyToolWrites ws).files p = (lastWrite ws p).or (st.files p) := by
  induction ws generalizing st with
  | nil => rfl
  | cons pc rest ih =>
    show ((st.toolWriteFile pc.1 pc.2).applyToolWrites rest).files p = _
    rw [ih]
    cases h : lastWrite rest p with
    | some c => simp [lastWrite, h, Option.or]
    | none =>
      by_cases hp : pc.1 = p
      · simp [lastWrite, h, hp, Option.or]
      · simp [lastWrite, h, hp, Option.or, Ne.symm hp]

theorem applyToolWrites_dirs (ws : List (String × String)) (st : St) :
    (st.applyToolWrites ws).dirs = st.dirs := by
  induction ws generalizing st with
  | nil => rfl
  | cons pc rest ih =>
    show ((st.toolWriteFile pc.1 pc.2).applyToolWrites rest).dirs = _
    rw [ih]; rfl

theorem applyToolWrites_trace (ws : List (String × String)) (st : St) :
    (st.applyToolWrites ws).trace
      = st.trace ++ ws.map (fun pc => Event.toolWriteEv pc.1) := by
  induction ws generalizing st with
  | nil => simp [St.applyToolWrites]
  | cons pc rest ih =>
    show ((st.toolWriteFile pc.1 pc.2).applyToolWrites rest).trace = _
    rw [ih]; simp

theorem lastWrite_eq_none (ws : List (String × String)) (p : String)
    (h : ∀ pc ∈ ws, pc.1 ≠ p) : lastWrite ws p = none := by
  induction ws with
  | nil => rfl
  | cons pc rest ih =>
    have hp : pc.1 ≠ p := h pc (List.mem_cons_self pc rest)
    have hrest := ih (fun x hx => h x (List.mem_cons_of_mem pc hx))
    simp [lastWrite, hp, hrest, Option.or]

/-! ### String disjointness tools -/

theorem strCancelLeft {x a b : String} (h : x ++ a = x ++ b) : a = b := by
  apply String.ext
  have hd : x.data ++ a.data = x.data ++ b.data := by
    have := congrArg String.data h
    simpa [String.data_append] using this
  exact List.append_cancel_left hd

theorem strRevLead_of_append {d s t : String} (h : d ++ s = t) :
    s.data.reverse <+: t.data.reverse := by
  have hd : t.data = d.data ++ s.data := by
    have h2 := congrArg String.data h
    rw [String.data_append] at h2
    exact h2.symm
  rw [hd, List.reverse_append]
  exact List.prefix_append _ _

theorem strNe_of_revLead {s t : String} (hn : ¬ s.data.reverse <+: t.data.reverse)
    (d : String) : d ++ s ≠ t :=
  fun h => hn (strRevLead_of_append h)

theorem strLead_of_append {x t y : String} (h : x ++ t = y) :
    x.data <+: y.data := by
  have hd : y.data = x.data ++ t.data := by
    have h2 := congrArg String.data h
    rw [String.data_append] at h2
    exact h2.symm
  rw [hd]
  exact List.prefix_append _ _

theorem strNe_of_lead {x y : String} (hn : ¬ x.data <+: y.data)
    (t : String) : x ++ t ≠ y :=
  fun h => hn (strLead_of_append h)

theorem strNe_of_short {x y : String} (h : y.length < x.length)
    (t : String) : x ++ t ≠ y := by
  intro he
  have := congrArg String.length he
  rw [String.length_append] at this
  omega

/-! ### Dedup lemmas -/

theorem dedupFirstAux_congr (L : List String) :
    ∀ s s' : List String, (∀ x, x ∈ s ↔ x ∈ s') →
      dedupFirstAux s L = dedupFirstAux s' L := by
  induction L with
  | nil => intro s s' _; rfl
  | cons l ls ih =>
    intro s s' hss
    by_cases hl : l ∈ s
    · have hl' : l ∈ s' := (hss l).mp hl
      simp [dedupFirstAux, hl, hl', ih s s' hss]
    · have hl' : l ∉ s' := fun hc => hl ((hss l).mpr hc)
      have hstep : ∀ x, x ∈ l :: s ↔ x ∈ l :: s' := by
        intro x; simp [hss x]
      simp [dedupFirstAux, hl, hl', ih (l :: s) (l :: s') hstep]

theorem dedupFirstAux_append (A B : List String) :
    ∀ s : List String,
      dedupFirstAux s (A ++ B) = dedupFirstAux s A ++ dedupFirstAux (A ++ s) B := by
  induction A with
  | nil => intro s; simp [dedupFirstAux]
  | cons l A' ih =>
    intro s
    by_cases hl : l ∈ s
    · have h1 : dedupFirstAux s ((l :: A') ++ B) = dedupFirstAux s (A' ++ B) := by
        rw [List.cons_append]; simp [dedupFirstAux, hl]
      have h2 : dedupFirstAux s (l :: A') = dedupFirstAux s A' := by
        simp [dedupFirstAux, hl]
      have hmem : ∀ x, x ∈ A' ++ s ↔ x ∈ (l :: A') ++ s := by
        intro x
        simp only [List.cons_append, List.mem_append, List.mem_cons]
        constructor
        · intro hx; tauto
        · rintro (h | h | h)
          · rw [h]; exact Or.inr hl
          · exact Or.inl h
          · exact Or.inr h
      rw [h1, ih s, h2, dedupFirstAux_congr B (A' ++ s) ((l :: A') ++ s) hmem]
    · have h1 : dedupFirstAux s ((l :: A') ++ B) = l :: dedupFirstAux (l :: s) (A' ++ B) := by
        rw [List.cons_append]; simp [dedupFirstAux, hl]
      have h2 : dedupFirstAux s (l :: A') = l :: dedupFirstAux (l :: s) A' := by
        simp [dedupFirstAux, hl]
      have hmem : ∀ x, x ∈ A' ++ l :: s ↔ x ∈ (l :: A') ++ s := by
        intro x
        simp only [List.cons_append, List.mem_append, List.mem_cons]
        tauto
      rw [h1, ih (l :: s), h2, dedupFirstAux_congr B (A' ++ l :: s) ((l :: A') ++ s) hmem]
      simp

/-! ### resolveOuts lemmas -/

theorem resolveOuts_map_fst (f : String → Option String) :
    ∀ (l pairs : List (String × String)),
      resolveOuts f l = Except.ok pairs → pairs.map Prod.fst = l.map Prod.fst := by
  intro l
  induction l with
  | nil => intro pairs h; cases h; rfl
  | cons np rest ih =>
    intro pairs h
    obtain ⟨n, p⟩ := np
    cases hf : f p with
    | none => rw [resolveOuts, hf] at h; cases h
    | some c =>
      rw [resolveOuts, hf] at h
      cases hrest : resolveOuts f rest with
      | error e => rw [hrest] at h; cases h
      | ok tail =>
        rw [hrest] at h
        cases h
        simp [ih tail hrest]

theorem resolveOuts_congr (f g : String → Option String) :
    ∀ l : List (String × String), (∀ nc ∈ l, f nc.2 = g nc.2) →
      resolveOuts f l = resolveOuts g l := by
  intro l
  induction l with
  | nil => intro _; rfl
  | cons np rest ih =>
    intro h
    obtain ⟨n, p⟩ := np
    have hp : f p = g p := h (n, p) (List.mem_cons_self _ _)
    have hrest := ih (fun x hx => h x (List.mem_cons_of_mem _ hx))
    rw [resolveOuts, resolveOuts, hp, hrest]

theorem resolveOuts_error_of_missing (f : String → Option String) :
    ∀ l : List (String × String), (∃ nc ∈ l, f nc.2 = none) →
      ∃ e, resolveOuts f l = Except.error e := by
  intro l
  induction l with
  | nil => rintro ⟨nc, hmem, _⟩; cases hmem
  | cons np rest ih =>
    rintro ⟨nc, hmem, hnone⟩
    obtain ⟨n, p⟩ := np
    cases hf : f p with
    | none => exact ⟨OSErr.fileNotFound p, by rw [resolveOuts, hf]⟩
    | some c =>
      rcases List.mem_cons.mp hmem with heq | hmem'
      · subst heq; rw [hf] at hnone; cases hnone
      · obtain ⟨e, he⟩ := ih ⟨nc, hmem', hnone⟩
        exact ⟨e, by rw [resolveOuts, hf, he]⟩

/-! ### Monad unfolding -/

theorem M.bind_def {α β : Type} (x : M α) (f : α → M β) (st : St) :
    (x >>= f) st = match x st with
      | (st1, Except.ok a) => f a st1
      | (st1, Except.error e) => (st1, Except.error e) := rfl

theorem M.pure_def {α : Type} (a : α) (st : St) : (pure a : M α) st = (st, Except.ok a) := rfl

/-! ### Path inequality battery -/

theorem fixedNe (x a b : String) (h : a ≠ b) : x ++ a ≠ x ++ b :=
  fun he => h (strCancelLeft he)

theorem underNe_fixed (x a t u : String)
    (hn : ¬ ((a ++ "/").data <+: t.data)) : (x ++ a) ++ "/" ++ u ≠ x ++ t := by
  intro h
  have h2 : x ++ (a ++ ("/" ++ u)) = x ++ t := by
    rw [← String.append_assoc, ← String.append_assoc]
    exact h
  have h3 := strCancelLeft h2
  have h4 : (a ++ "/") ++ u = t := by rw [String.append_assoc]; exact h3
  exact strNe_of_lead hn u h4

theorem fixedNe_report (x t d u : String)
    (hn : ¬ (u.data.reverse <+: t.data.reverse)) : x ++ ("/" ++ t) ≠ ((x ++ "/") ++ d) ++ u := by
  intro h
  have h2 : (x ++ "/") ++ t = (x ++ "/") ++ (d ++ u) := by
    rw [String.append_assoc, h, String.append_assoc]
  exact strNe_of_revLead hn d (strCancelLeft h2).symm

theorem lastWrite_none_of_allowed (ws : List (String × String)) (base q : String)
    (hw : ∀ pc ∈ ws, pc.1 = base ∨ isUnder base pc.1)
    (hne : base ≠ q) (hneU : ∀ u, base ++ "/" ++ u ≠ q) : lastWrite ws q = none := by
  apply lastWrite_eq_none
  intro pc hpc
  rcases hw pc hpc with h | ⟨u, hu⟩
  · rw [h]; exact hne
  · rw [hu]; exact hneU u

/-! ### Unfolding the orchestrator -/

theorem run_all_eq (env : ProcEnv) (pk : PdfKit) (tA : Bool) (d : String) (st : St)
    (b1 b2 b3 b4 b5 b6 : ExecBehavior)
    (h1 : env.find (amassCmd d) = some b1) (h2 : env.find (dnsreconCmd d) = some b2)
    (h3 : env.find (subfinderCmd d) = some b3) (h4 : env.find (httpxCmd d) = some b4)
    (h5 : env.find (gowitnessCmd d) = some b5) (h6 : env.find (nmapCmd d) = some b6) :
    run_all env pk tA d st =
      match generate_report pk tA d (outDirOf d) (resultsList d)
          (toolPhaseSt b1 b2 b3 b4 b5 b6 d st) with
      | (st2, Except.ok _) => (st2, Except.ok (resultsList d))
      | (st2, Except.error e) => (st2, Except.error e) := by
  rw [amassCmd] at h1
  rw [dnsreconCmd] at h2
  rw [subfinderCmd] at h3
  rw [httpxCmd] at h4
  rw [gowitnessCmd] at h5
  rw [nmapCmd] at h6
  simp only [run_all, run_amass, run_dnsrecon, run_subfinder, combineM, run_httpx,
    run_gowitness, run_nmap, run_command, M.bind_def, M.pure_def, M.writeFile, M.mkdir,
    h1, h2, h3, h4, h5, h6, toolPhaseSt, resultsList, amassPath, dnsreconPath,
    subfinderPath, subdomPath, vivosPath, gowitnessLogPath, nmapPath, gowitnessLog,
    shotsDir, amassCmd, dnsreconCmd, subfinderCmd, httpxCmd, gowitnessCmd, nmapCmd]
  rcases hgr : generate_report pk tA d (outDirOf d)
      [("amass", outDirOf d ++ "/amass.txt"), ("dnsrecon", outDirOf d ++ "/dnsrecon.txt"),
        ("subfinder", outDirOf d ++ "/subfinder.txt"), ("subdominios", outDirOf d ++ "/subdominios.txt"),
        ("vivos", outDirOf d ++ "/vivos.txt"), ("gowitness", outDirOf d ++ "/gowitness.txt"),
        ("nmap", outDirOf d ++ "/nmap.txt")]
      (((((((((combine_subdomains
        ((((((((st.mkdir (outDirOf d)).execNote
          ["amass", "enum", "-d", d, "-o", outDirOf d ++ "/amass.txt"]).applyToolWrites
          b1.writes).execNote ["dnsrecon", "-d", d]).applyToolWrites b2.writes).writeFile
          (outDirOf d ++ "/dnsrecon.txt") b2.output).execNote
          ["subfinder", "-d", d, "-o", outDirOf d ++ "/subfinder.txt"]).applyToolWrites b3.writes)
        (outDirOf d)).execNote
        ["httpx", "-l", outDirOf d ++ "/subdominios.txt", "-o", outDirOf d ++ "/vivos.txt"]).applyToolWrites
        b4.writes).mkdir (outDirOf d ++ "/gowitness/shots")).execNote
        ["gowitness", "file", "-f", outDirOf d ++ "/vivos.txt", "--destination",
          outDirOf d ++ "/gowitness/shots"]).applyToolWrites b5.writes).writeFile
        (outDirOf d ++ "/gowitness.txt")
        ("Resultados de gowitness\n\n" ++ "Capturas almacenadas en: " ++ (outDirOf d ++ "/gowitness/shots") ++
          "\n\n" ++ "Salida de la herramienta:\n" ++ b5.output)).execNote
        ["nmap", "-iL", outDirOf d ++ "/vivos.txt", "-oN", outDirOf d ++ "/nmap.txt"]).applyToolWrites
        b6.writes) with ⟨st2, r⟩
  cases r <;> rfl

/-! ### Characterizing the tool phase -/

theorem toolPhase_trace (b1 b2 b3 b4 b5 b6 : ExecBehavior) (d : String) (st : St) :
    (toolPhaseSt b1 b2 b3 b4 b5 b6 d st).trace
      = st.trace ++ (Event.mkdirEv (outDirOf d) ::
          (Event.execEv (amassCmd d) :: b1.writes.map (fun pc => Event.toolWriteEv pc.1)
          ++ (Event.execEv (dnsreconCmd d) :: b2.writes.map (fun pc => Event.toolWriteEv pc.1))
          ++ [Event.writeEv (dnsreconPath d)]
          ++ (Event.execEv (subfinderCmd d) :: b3.writes.map (fun pc => Event.toolWriteEv pc.1))
          ++ [Event.writeEv (subdomPath d)]
          ++ (Event.execEv (httpxCmd d) :: b4.writes.map (fun pc => Event.toolWriteEv pc.1))
          ++ [Event.mkdirEv (shotsDir d)]
          ++ (Event.execEv (gowitnessCmd d) :: b5.writes.map (fun pc => Event.toolWriteEv pc.1))
          ++ [Event.writeEv (gowitnessLogPath d)]
          ++ (Event.execEv (nmapCmd d) :: b6.writes.map (fun pc => Event.toolWriteEv pc.1)))) := by
  simp [toolPhaseSt, combine_subdomains, applyToolWrites_trace, dnsreconPath, subdomPath,
    gowitnessLogPath, shotsDir, List.append_assoc]

theorem toolPhase_dirs_outDir (b1 b2 b3 b4 b5 b6 : ExecBehavior) (d : String) (st : St) :
    (toolPhaseSt b1 b2 b3 b4 b5 b6 d st).dirs (outDirOf d) = true := by
  simp [toolPhaseSt, combine_subdomains, applyToolWrites_dirs]
theorem toolPhase_files_amass (b1 b2 b3 b4 b5 b6 : ExecBehavior) (d : String) (st : St)
    (h1w : ∀ pc ∈ b1.writes, pc.1 = amassPath d ∨ isUnder (amassPath d) pc.1)
    (h2w : b2.writes = [])
    (h3w : ∀ pc ∈ b3.writes, pc.1 = subfinderPath d ∨ isUnder (subfinderPath d) pc.1)
    (h4w : ∀ pc ∈ b4.writes, pc.1 = vivosPath d ∨ isUnder (vivosPath d) pc.1)
    (h5w : ∀ pc ∈ b5.writes, pc.1 = shotsDir d ∨ isUnder (shotsDir d) pc.1)
    (h6w : ∀ pc ∈ b6.writes, pc.1 = nmapPath d ∨ isUnder (nmapPath d) pc.1) :
    (toolPhaseSt b1 b2 b3 b4 b5 b6 d st).files (amassPath d)
      = (lastWrite b1.writes (amassPath d)).or (st.files (amassPath d)) := by
  have n3 : lastWrite b3.writes (amassPath d) = none :=
    lastWrite_none_of_allowed _ _ _ h3w
      (fixedNe (outDirOf d) "/subfinder.txt" "/amass.txt" (by decide))
      (fun u => underNe_fixed (outDirOf d) "/subfinder.txt" "/amass.txt" u (by decide))
  have n4 : lastWrite b4.writes (amassPath d) = none :=
    lastWrite_none_of_allowed _ _ _ h4w
      (fixedNe (outDirOf d) "/vivos.txt" "/amass.txt" (by decide))
      (fun u => underNe_fixed (outDirOf d) "/vivos.txt" "/amass.txt" u (by decide))
  have n5 : lastWrite b5.writes (amassPath d) = none :=
    lastWrite_none_of_allowed _ _ _ h5w
      (fixedNe (outDirOf d) "/gowitness/shots" "/amass.txt" (by decide))
      (fun u => underNe_fixed (outDirOf d) "/gowitness/shots" "/amass.txt" u (by decide))
  have n6 : lastWrite b6.writes (amassPath d) = none :=
    lastWrite_none_of_allowed _ _ _ h6w
      (fixedNe (outDirOf d) "/nmap.txt" "/amass.txt" (by decide))
      (fun u => underNe_fixed (outDirOf d) "/nmap.txt" "/amass.txt" u (by decide))
  have eD : amassPath d ≠ dnsreconPath d :=
    fixedNe (outDirOf d) "/amass.txt" "/dnsrecon.txt" (by decide)
  have eS : amassPath d ≠ subdomPath d :=
    fixedNe (outDirOf d) "/amass.txt" "/subdominios.txt" (by decide)
  have eG : amassPath d ≠ gowitnessLogPath d :=
    fixedNe (outDirOf d) "/amass.txt" "/gowitness.txt" (by decide)
  simp only [toolPhaseSt, combine_subdomains, applyToolWrites_files, h2w,
    St.writeFile_files, St.mkdir_files, St.execNote_files,
    amassPath, dnsreconPath, subfinderPath, subdomPath, vivosPath, gowitnessLogPath,
    nmapPath, shotsDir, n3, n4, n5, n6] at *
  simp only [lastWrite, St.applyToolWrites, List.foldl_nil, Option.or, ite_true, if_neg eD, if_neg eS, if_neg eG]

theorem toolPhase_files_subfinder (b1 b2 b3 b4 b5 b6 : ExecBehavior) (d : String) (st : St)
    (h1w : ∀ pc ∈ b1.writes, pc.1 = amassPath d ∨ isUnder (amassPath d) pc.1)
    (h2w : b2.writes = [])
    (h3w : ∀ pc ∈ b3.writes, pc.1 = subfinderPath d ∨ isUnder (subfinderPath d) pc.1)
    (h4w : ∀ pc ∈ b4.writes, pc.1 = vivosPath d ∨ isUnder (vivosPath d) pc.1)
    (h5w : ∀ pc ∈ b5.writes, pc.1 = shotsDir d ∨ isUnder (shotsDir d) pc.1)
    (h6w : ∀ pc ∈ b6.writes, pc.1 = nmapPath d ∨ isUnder (nmapPath d) pc.1) :
    (toolPhaseSt b1 b2 b3 b4 b5 b6 d st).files (subfinderPath d)
      = (lastWrite b3.writes (subfinderPath d)).or (st.files (subfinderPath d)) := by
  have n1 : lastWrite b1.writes (subfinderPath d) = none :=
    lastWrite_none_of_allowed _ _ _ h1w
      (fixedNe (outDirOf d) "/amass.txt" "/subfinder.txt" (by decide))
      (fun u => underNe_fixed (outDirOf d) "/amass.txt" "/subfinder.txt" u (by decide))
  have n4 : lastWrite b4.writes (subfinderPath d) = none :=
    lastWrite_none_of_allowed _ _ _ h4w
      (fixedNe (outDirOf d) "/vivos.txt" "/subfinder.txt" (by decide))
      (fun u => underNe_fixed (outDirOf d) "/vivos.txt" "/subfinder.txt" u (by decide))
  have n5 : lastWrite b5.writes (subfinderPath d) = none :=
    lastWrite_none_of_allowed _ _ _ h5w
      (fixedNe (outDirOf d) "/gowitness/shots" "/subfinder.txt" (by decide))
      (fun u => underNe_fixed (outDirOf d) "/gowitness/shots" "/subfinder.txt" u (by decide))
  have n6 : lastWrite b6.writes (subfinderPath d) = none :=
    lastWrite_none_of_allowed _ _ _ h6w
      (fixedNe (outDirOf d) "/nmap.txt" "/subfinder.txt" (by decide))
      (fun u => underNe_fixed (outDirOf d) "/nmap.txt" "/subfinder.txt" u (by decide))
  have eD : subfinderPath d ≠ dnsreconPath d :=
    fixedNe (outDirOf d) "/subfinder.txt" "/dnsrecon.txt" (by decide)
  have eS : subfinderPath d ≠ subdomPath d :=
    fixedNe (outDirOf d) "/subfinder.txt" "/subdominios.txt" (by decide)
  have eG : subfinderPath d ≠ gowitnessLogPath d :=
    fixedNe (outDirOf d) "/subfinder.txt" "/gowitness.txt" (by decide)
  simp only [toolPhaseSt, combine_subdomains, applyToolWrites_files, h2w,
    St.writeFile_files, St.mkdir_files, St.execNote_files,
    amassPath, dnsreconPath, subfinderPath, subdomPath, vivosPath, gowitnessLogPath,
    nmapPath, shotsDir, n1, n4, n5, n6] at *
  simp only [lastWrite, St.applyToolWrites, List.foldl_nil, Option.or, ite_true, if_neg eD, if_neg eS, if_neg eG]

theorem toolPhase_files_dnsrecon (b1 b2 b3 b4 b5 b6 : ExecBehavior) (d : String) (st : St)
    (h1w : ∀ pc ∈ b1.writes, pc.1 = amassPath d ∨ isUnder (amassPath d) pc.1)
    (h2w : b2.writes = [])
    (h3w : ∀ pc ∈ b3.writes, pc.1 = subfinderPath d ∨ isUnder (subfinderPath d) pc.1)
    (h4w : ∀ pc ∈ b4.writes, pc.1 = vivosPath d ∨ isUnder (vivosPath d) pc.1)
    (h5w : ∀ pc ∈ b5.writes, pc.1 = shotsDir d ∨ isUnder (shotsDir d) pc.1)
    (h6w : ∀ pc ∈ b6.writes, pc.1 = nmapPath d ∨ isUnder (nmapPath d) pc.1) :
    (toolPhaseSt b1 b2 b3 b4 b5 b6 d st).files (dnsreconPath d) = some b2.output := by
  have n3 : lastWrite b3.writes (dnsreconPath d) = none :=
    lastWrite_none_of_allowed _ _ _ h3w
      (fixedNe (outDirOf d) "/subfinder.txt" "/dnsrecon.txt" (by decide))
      (fun u => underNe_fixed (outDirOf d) "/subfinder.txt" "/dnsrecon.txt" u (by decide))
  have n4 : lastWrite b4.writes (dnsreconPath d) = none :=
    lastWrite_none_of_allowed _ _ _ h4w
      (fixedNe (outDirOf d) "/vivos.txt" "/dnsrecon.txt" (by decide))
      (fun u => underNe_fixed (outDirOf d) "/vivos.txt" "/dnsrecon.txt" u (by decide))
  have n5 : lastWrite b5.writes (dnsreconPath d) = none :=
    lastWrite_none_of_allowed _ _ _ h5w
      (fixedNe (outDirOf d) "/gowitness/shots" "/dnsrecon.txt" (by decide))
      (fun u => underNe_fixed (outDirOf d) "/gowitness/shots" "/dnsrecon.txt" u (by decide))
  have n6 : lastWrite b6.writes (dnsreconPath d) = none :=
    lastWrite_none_of_allowed _ _ _ h6w
      (fixedNe (outDirOf d) "/nmap.txt" "/dnsrecon.txt" (by decide))
      (fun u => underNe_fixed (outDirOf d) "/nmap.txt" "/dnsrecon.txt" u (by decide))
  have eS : dnsreconPath d ≠ subdomPath d :=
    fixedNe (outDirOf d) "/dnsrecon.txt" "/subdominios.txt" (by decide)
  have eG : dnsreconPath d ≠ gowitnessLogPath d :=
    fixedNe (outDirOf d) "/dnsrecon.txt" "/gowitness.txt" (by decide)
  simp only [toolPhaseSt, combine_subdomains, applyToolWrites_files, h2w,
    St.writeFile_files, St.mkdir_files, St.execNote_files,
    amassPath, dnsreconPath, subfinderPath, subdomPath, vivosPath, gowitnessLogPath,
    nmapPath, shotsDir, n3, n4, n5, n6] at *
  simp only [lastWrite, St.applyToolWrites, List.foldl_nil, Option.or, ite_true, if_neg eS, if_neg eG]

theorem toolPhase_files_vivos (b1 b2 b3 b4 b5 b6 : ExecBehavior) (d : String) (st : St)
    (h1w : ∀ pc ∈ b1.writes, pc.1 = amassPath d ∨ isUnder (amassPath d) pc.1)
    (h2w : b2.writes = [])
    (h3w : ∀ pc ∈ b3.writes, pc.1 = subfinderPath d ∨ isUnder (subfinderPath d) pc.1)
    (h4w : ∀ pc ∈ b4.writes, pc.1 = vivosPath d ∨ isUnder (vivosPath d) pc.1)
    (h5w : ∀ pc ∈ b5.writes, pc.1 = shotsDir d ∨ isUnder (shotsDir d) pc.1)
    (h6w : ∀ pc ∈ b6.writes, pc.1 = nmapPath d ∨ isUnder (nmapPath d) pc.1) :
    (toolPhaseSt b1 b2 b3 b4 b5 b6 d st).files (vivosPath d)
      = (lastWrite b4.writes (vivosPath d)).or (st.files (vivosPath d)) := by
  have n1 : lastWrite b1.writes (vivosPath d) = none :=
    lastWrite_none_of_allowed _ _ _ h1w
      (fixedNe (outDirOf d) "/amass.txt" "/vivos.txt" (by decide))
      (fun u => underNe_fixed (outDirOf d) "/amass.txt" "/vivos.txt" u (by decide))
  have n3 : lastWrite b3.writes (vivosPath d) = none :=
    lastWrite_none_of_allowed _ _ _ h3w
      (fixedNe (outDirOf d) "/subfinder.txt" "/vivos.txt" (by decide))
      (fun u => underNe_fixed (outDirOf d) "/subfinder.txt" "/vivos.txt" u (by decide))
  have n5 : lastWrite b5.writes (vivosPath d) = none :=
    lastWrite_none_of_allowed _ _ _ h5w
      (fixedNe (outDirOf d) "/gowitness/shots" "/vivos.txt" (by decide))
      (fun u => underNe_fixed (outDirOf d) "/gowitness/shots" "/vivos.txt" u (by decide))
  have n6 : lastWrite b6.writes (vivosPath d) = none :=
    lastWrite_none_of_allowed _ _ _ h6w
      (fixedNe (outDirOf d) "/nmap.txt" "/vivos.txt" (by decide))
      (fun u => underNe_fixed (outDirOf d) "/nmap.txt" "/vivos.txt" u (by decide))
  have eD : vivosPath d ≠ dnsreconPath d :=
    fixedNe (outDirOf d) "/vivos.txt" "/dnsrecon.txt" (by decide)
  have eS : vivosPath d ≠ subdomPath d :=
    fixedNe (outDirOf d) "/vivos.txt" "/subdominios.txt" (by decide)
  have eG : vivosPath d ≠ gowitnessLogPath d :=
    fixedNe (outDirOf d) "/vivos.txt" "/gowitness.txt" (by decide)
  simp only [toolPhaseSt, combine_subdomains, applyToolWrites_files, h2w,
    St.writeFile_files, St.mkdir_files, St.execNote_files,
    amassPath, dnsreconPath, subfinderPath, subdomPath, vivosPath, gowitnessLogPath,
    nmapPath, shotsDir, n1, n3, n5, n6] at *
  simp only [lastWrite, St.applyToolWrites, List.foldl_nil, Option.or, ite_true, if_neg eD, if_neg eS, if_neg eG]

theorem toolPhase_files_gwlog (b1 b2 b3 b4 b5 b6 : ExecBehavior) (d : String) (st : St)
    (h1w : ∀ pc ∈ b1.writes, pc.1 = amassPath d ∨ isUnder (amassPath d) pc.1)
    (h2w : b2.writes = [])
    (h3w : ∀ pc ∈ b3.writes, pc.1 = subfinderPath d ∨ isUnder (subfinderPath d) pc.1)
    (h4w : ∀ pc ∈ b4.writes, pc.1 = vivosPath d ∨ isUnder (vivosPath d) pc.1)
    (h5w : ∀ pc ∈ b5.writes, pc.1 = shotsDir d ∨ isUnder (shotsDir d) pc.1)
    (h6w : ∀ pc ∈ b6.writes, pc.1 = nmapPath d ∨ isUnder (nmapPath d) pc.1) :
    (toolPhaseSt b1 b2 b3 b4 b5 b6 d st).files (gowitnessLogPath d)
      = some (gowitnessLog d b5.output) := by
  have n6 : lastWrite b6.writes (gowitnessLogPath d) = none :=
    lastWrite_none_of_allowed _ _ _ h6w
      (fixedNe (outDirOf d) "/nmap.txt" "/gowitness.txt" (by decide))
      (fun u => underNe_fixed (outDirOf d) "/nmap.txt" "/gowitness.txt" u (by decide))
  simp only [toolPhaseSt, combine_subdomains, applyToolWrites_files, h2w,
    St.writeFile_files, St.mkdir_files, St.execNote_files,
    amassPath, dnsreconPath, subfinderPath, subdomPath, vivosPath, gowitnessLogPath,
    nmapPath, shotsDir, n6] at *
  simp only [lastWrite, St.applyToolWrites, List.foldl_nil, Option.or, ite_true, ]

theorem toolPhase_files_nmap (b1 b2 b3 b4 b5 b6 : ExecBehavior) (d : String) (st : St)
    (h1w : ∀ pc ∈ b1.writes, pc.1 = amassPath d ∨ isUnder (amassPath d) pc.1)
    (h2w : b2.writes = [])
    (h3w : ∀ pc ∈ b3.writes, pc.1 = subfinderPath d ∨ isUnder (subfinderPath d) pc.1)
    (h4w : ∀ pc ∈ b4.writes, pc.1 = vivosPath d ∨ isUnder (vivosPath d) pc.1)
    (h5w : ∀ pc ∈ b5.writes, pc.1 = shotsDir d ∨ isUnder (shotsDir d) pc.1)
    (h6w : ∀ pc ∈ b6.writes, pc.1 = nmapPath d ∨ isUnder (nmapPath d) pc.1) :
    (toolPhaseSt b1 b2 b3 b4 b5 b6 d st).files (nmapPath d)
      = (lastWrite b6.writes (nmapPath d)).or (st.files (nmapPath d)) := by
  have n1 : lastWrite b1.writes (nmapPath d) = none :=
    lastWrite_none_of_allowed _ _ _ h1w
      (fixedNe (outDirOf d) "/amass.txt" "/nmap.txt" (by decide))
      (fun u => underNe_fixed (outDirOf d) "/amass.txt" "/nmap.txt" u (by decide))
  have n3 : lastWrite b3.writes (nmapPath d) = none :=
    lastWrite_none_of_allowed _ _ _ h3w
      (fixedNe (outDirOf d) "/subfinder.txt" "/nmap.txt" (by decide))
      (fun u => underNe_fixed (outDirOf d) "/subfinder.txt" "/nmap.txt" u (by decide))
  have n4 : lastWrite b4.writes (nmapPath d) = none :=
    lastWrite_none_of_allowed _ _ _ h4w
      (fixedNe (outDirOf d) "/vivos.txt" "/nmap.txt" (by decide))
      (fun u => underNe_fixed (outDirOf d) "/vivos.txt" "/nmap.txt" u (by decide))
  have n5 : lastWrite b5.writes (nmapPath d) = none :=
    lastWrite_none_of_allowed _ _ _ h5w
      (fixedNe (outDirOf d) "/gowitness/shots" "/nmap.txt" (by decide))
      (fun u => underNe_fixed (outDirOf d) "/gowitness/shots" "/nmap.txt" u (by decide))
  have eD : nmapPath d ≠ dnsreconPath d :=
    fixedNe (outDirOf d) "/nmap.txt" "/dnsrecon.txt" (by decide)
  have eS : nmapPath d ≠ subdomPath d :=
    fixedNe (outDirOf d) "/nmap.txt" "/subdominios.txt" (by decide)
  have eG : nmapPath d ≠ gowitnessLogPath d :=
    fixedNe (outDirOf d) "/nmap.txt" "/gowitness.txt" (by decide)
  simp only [toolPhaseSt, combine_subdomains, applyToolWrites_files, h2w,
    St.writeFile_files, St.mkdir_files, St.execNote_files,
    amassPath, dnsreconPath, subfinderPath, subdomPath, vivosPath, gowitnessLogPath,
    nmapPath, shotsDir, n1, n3, n4, n5] at *
  simp only [lastWrite, St.applyToolWrites, List.foldl_nil, Option.or, ite_true, if_neg eD, if_neg eS, if_neg eG]

theorem toolPhase_files_subdom (b1 b2 b3 b4 b5 b6 : ExecBehavior) (d : String) (st : St)
    (h1w : ∀ pc ∈ b1.writes, pc.1 = amassPath d ∨ isUnder (amassPath d) pc.1)
    (h2w : b2.writes = [])
    (h3w : ∀ pc ∈ b3.writes, pc.1 = subfinderPath d ∨ isUnder (subfinderPath d) pc.1)
    (h4w : ∀ pc ∈ b4.writes, pc.1 = vivosPath d ∨ isUnder (vivosPath d) pc.1)
    (h5w : ∀ pc ∈ b5.writes, pc.1 = shotsDir d ∨ isUnder (shotsDir d) pc.1)
    (h6w : ∀ pc ∈ b6.writes, pc.1 = nmapPath d ∨ isUnder (nmapPath d) pc.1) :
    (toolPhaseSt b1 b2 b3 b4 b5 b6 d st).files (subdomPath d)
      = some (unlines (dedupFirst
          (linesOpt ((lastWrite b1.writes (amassPath d)).or (st.files (amassPath d)))
            ++ linesOpt ((lastWrite b3.writes (subfinderPath d)).or
              (st.files (subfinderPath d)))))) := by
  have n4 : lastWrite b4.writes (subdomPath d) = none :=
    lastWrite_none_of_allowed _ _ _ h4w
      (fixedNe (outDirOf d) "/vivos.txt" "/subdominios.txt" (by decide))
      (fun u => underNe_fixed (outDirOf d) "/vivos.txt" "/subdominios.txt" u (by decide))
  have n5 : lastWrite b5.writes (subdomPath d) = none :=
    lastWrite_none_of_allowed _ _ _ h5w
      (fixedNe (outDirOf d) "/gowitness/shots" "/subdominios.txt" (by decide))
      (fun u => underNe_fixed (outDirOf d) "/gowitness/shots" "/subdominios.txt" u (by decide))
  have n6 : lastWrite b6.writes (subdomPath d) = none :=
    lastWrite_none_of_allowed _ _ _ h6w
      (fixedNe (outDirOf d) "/nmap.txt" "/subdominios.txt" (by decide))
      (fun u => underNe_fixed (outDirOf d) "/nmap.txt" "/subdominios.txt" u (by decide))
  have n3a : lastWrite b3.writes (amassPath d) = none :=
    lastWrite_none_of_allowed _ _ _ h3w
      (fixedNe (outDirOf d) "/subfinder.txt" "/amass.txt" (by decide))
      (fun u => underNe_fixed (outDirOf d) "/subfinder.txt" "/amass.txt" u (by decide))
  have n1s : lastWrite b1.writes (subfinderPath d) = none :=
    lastWrite_none_of_allowed _ _ _ h1w
      (fixedNe (outDirOf d) "/amass.txt" "/subfinder.txt" (by decide))
      (fun u => underNe_fixed (outDirOf d) "/amass.txt" "/subfinder.txt" u (by decide))
  have eG : subdomPath d ≠ gowitnessLogPath d :=
    fixedNe (outDirOf d) "/subdominios.txt" "/gowitness.txt" (by decide)
  have eDA : amassPath d ≠ dnsreconPath d :=
    fixedNe (outDirOf d) "/amass.txt" "/dnsrecon.txt" (by decide)
  have eDS : subfinderPath d ≠ dnsreconPath d :=
    fixedNe (outDirOf d) "/subfinder.txt" "/dnsrecon.txt" (by decide)
  simp only [toolPhaseSt, combine_subdomains, applyToolWrites_files, h2w,
    St.writeFile_files, St.mkdir_files, St.execNote_files,
    amassPath, dnsreconPath, subfinderPath, subdomPath, vivosPath, gowitnessLogPath,
    nmapPath, shotsDir, n4, n5, n6, n3a, n1s] at *
  simp only [lastWrite, St.applyToolWrites, List.foldl_nil, Option.or, ite_true,
    if_neg eG, if_neg eDA, if_neg eDS]
/-! ### Render decomposition and ordered occurrence -/

theorem strJoin_cons (a : String) (l : List String) :
    String.join (a :: l) = a ++ String.join l := by
  apply String.ext
  simp [String.data_join, String.data_append]

theorem jinjaHtml_decomp (domain : String) (outputs : List (String × String)) :
    jinjaHtml domain outputs
      = jinjaChromeA ++ h1tag domain ++ jinjaInd
          ++ sectionsHtml jinjaInd jinjaInd jinjaInd outputs ++ jinjaChromeB := by
  have hsec : sectionsHtml jinjaInd jinjaInd jinjaInd outputs
      = String.join (outputs.map (fun nc =>
          "\n            <h2>" ++ nc.1 ++ "</h2>\n            <pre>" ++ nc.2
            ++ "</pre>\n            ")) := by
    unfold sectionsHtml
    congr 1
    apply List.map_congr_left
    intro nc _
    simp [h2tag, preTag, jinjaInd, String.append_assoc]
    simp [← String.append_assoc]
  rw [hsec]
  simp [jinjaHtml, h1tag, jinjaChromeA, jinjaInd, jinjaChromeB, String.append_assoc]
  simp [← String.append_assoc]

theorem manualHtml_decomp (domain : String) (outputs : List (String × String)) :
    manualHtml domain outputs
      = manualChromeA ++ h1tag domain ++ sectionsHtml "" "" "" outputs ++ manualChromeB := by
  have hsec : sectionsHtml "" "" "" outputs
      = String.join (outputs.map (fun nc =>
          "<h2>" ++ nc.1 ++ "</h2><pre>" ++ nc.2 ++ "</pre>")) := by
    unfold sectionsHtml
    congr 1
    apply List.map_congr_left
    intro nc _
    simp [h2tag, preTag, String.append_assoc]
    simp [← String.append_assoc]
  rw [hsec]
  simp [manualHtml, h1tag, manualChromeA, manualChromeB, String.append_assoc]

theorem containsInOrder_append_left (a s : String) (ts : List String)
    (h : containsInOrder s ts) : containsInOrder (a ++ s) ts := by
  cases ts with
  | nil => trivial
  | cons t ts =>
    obtain ⟨x, y, hxy, hrest⟩ := h
    exact ⟨a ++ x, y, by rw [hxy, ← String.append_assoc], hrest⟩

theorem containsInOrder_sections (jpre jmid jpost tail : String) :
    ∀ pairs : List (String × String),
      containsInOrder
        (String.join (pairs.map (fun nc =>
          jpre ++ h2tag nc.1 ++ jmid ++ preTag nc.2 ++ jpost)) ++ tail)
        (pairs.map (fun nc => h2tag nc.1)) := by
  intro pairs
  induction pairs with
  | nil => trivial
  | cons nc rest ih =>
    rw [List.map_cons, List.map_cons, strJoin_cons]
    refine ⟨jpre, jmid ++ (preTag nc.2 ++ (jpost ++ (String.join (rest.map (fun nc =>
      jpre ++ h2tag nc.1 ++ jmid ++ preTag nc.2 ++ jpost)) ++ tail))), ?_, ?_⟩
    · simp only [String.append_assoc]
    · exact containsInOrder_append_left _ _ _ (containsInOrder_append_left _ _ _
        (containsInOrder_append_left _ _ _ ih))

/-! ### isUnder toolkit -/

theorem isUnder_fixed (x t s : String) (h : "/" ++ t = s) : isUnder x (x ++ s) :=
  ⟨t, by rw [← h, ← String.append_assoc]⟩

theorem isUnder_step (dir p u : String) (h1 : isUnder dir p) :
    isUnder dir (p ++ "/" ++ u) := by
  obtain ⟨t, ht⟩ := h1
  exact ⟨t ++ "/" ++ u, by rw [ht]; simp only [String.append_assoc]⟩

theorem optOr_idem (a b : Option String) : a.or (a.or b) = a.or b := by
  cases a <;> simp [Option.or]

/-! ### Inverting a successful run -/

/-- Inversion of a successful run: every tool was found, the report resolve
succeeded, the returned mapping is `resultsList`, and the final state is the
tool phase plus the two report writes. -/
theorem run_all_inv (env : ProcEnv) (pk : PdfKit) (tA : Bool) (d : String) (st : St)
    (res : List (String × String))
    (hok : (run_all env pk tA d st).2 = Except.ok res) :
    ∃ b1 b2 b3 b4 b5 b6 pairs,
      env.find (amassCmd d) = some b1 ∧ env.find (dnsreconCmd d) = some b2
      ∧ env.find (subfinderCmd d) = some b3 ∧ env.find (httpxCmd d) = some b4
      ∧ env.find (gowitnessCmd d) = some b5 ∧ env.find (nmapCmd d) = some b6
      ∧ resolveOuts (toolPhaseSt b1 b2 b3 b4 b5 b6 d st).files (resultsList d)
          = Except.ok pairs
      ∧ res = resultsList d
      ∧ run_all env pk tA d st
          = (((toolPhaseSt b1 b2 b3 b4 b5 b6 d st).writeFile (htmlPath d)
              (if tA = true then jinjaHtml d pairs else manualHtml d pairs)).writeFile
              (pdfPath d) (pdfContent pk tA d pairs),
            Except.ok (resultsList d)) := by
  cases h1 : env.find (amassCmd d) with
  | none =>
    rw [amassCmd] at h1
    simp only [run_all, run_amass, run_dnsrecon, run_subfinder, combineM, run_httpx,
      run_gowitness, run_nmap, run_command, M.bind_def, M.pure_def, M.writeFile, M.mkdir,
      h1] at hok
    exact Except.noConfusion hok
  | some b1 =>
  cases h2 : env.find (dnsreconCmd d) with
  | none =>
    rw [amassCmd] at h1
    rw [dnsreconCmd] at h2
    simp only [run_all, run_amass, run_dnsrecon, run_subfinder, combineM, run_httpx,
      run_gowitness, run_nmap, run_command, M.bind_def, M.pure_def, M.writeFile, M.mkdir,
      h1, h2] at hok
    exact Except.noConfusion hok
  | some b2 =>
  cases h3 : env.find (subfinderCmd d) with
  | none =>
    rw [amassCmd] at h1
    rw [dnsreconCmd] at h2
    rw [subfinderCmd] at h3
    simp only [run_all, run_amass, run_dnsrecon, run_subfinder, combineM, run_httpx,
      run_gowitness, run_nmap, run_command, M.bind_def, M.pure_def, M.writeFile, M.mkdir,
      h1, h2, h3] at hok
    exact Except.noConfusion hok
  | some b3 =>
  cases h4 : env.find (httpxCmd d) with
  | none =>
    rw [amassCmd] at h1
    rw [dnsreconCmd] at h2
    rw [subfinderCmd] at h3
    rw [httpxCmd] at h4
    simp only [run_all, run_amass, run_dnsrecon, run_subfinder, combineM, run_httpx,
      run_gowitness, run_nmap, run_command, M.bind_def, M.pure_def, M.writeFile, M.mkdir,
      h1, h2, h3, h4] at hok
    exact Except.noConfusion hok
  | some b4 =>
  cases h5 : env.find (gowitnessCmd d) with
  | none =>
    rw [amassCmd] at h1
    rw [dnsreconCmd] at h2
    rw [subfinderCmd] at h3
    rw [httpxCmd] at h4
    rw [gowitnessCmd] at h5
    simp only [run_all, run_amass, run_dnsrecon, run_subfinder, combineM, run_httpx,
      run_gowitness, run_nmap, run_command, M.bind_def, M.pure_def, M.writeFile, M.mkdir,
      h1, h2, h3, h4, h5] at hok
    exact Except.noConfusion hok
  | some b5 =>
  cases h6 : env.find (nmapCmd d) with
  | none =>
    rw [amassCmd] at h1
    rw [dnsreconCmd] at h2
    rw [subfinderCmd] at h3
    rw [httpxCmd] at h4
    rw [gowitnessCmd] at h5
    rw [nmapCmd] at h6
    simp only [run_all, run_amass, run_dnsrecon, run_subfinder, combineM, run_httpx,
      run_gowitness, run_nmap, run_command, M.bind_def, M.pure_def, M.writeFile, M.mkdir,
      h1, h2, h3, h4, h5, h6] at hok
    exact Except.noConfusion hok
  | some b6 =>
  have heq := run_all_eq env pk tA d st b1 b2 b3 b4 b5 b6 h1 h2 h3 h4 h5 h6
  cases hres : resolveOuts (toolPhaseSt b1 b2 b3 b4 b5 b6 d st).files (resultsList d) with
  | error e =>
    rw [heq] at hok
    simp only [generate_report, hres] at hok
    exact Except.noConfusion hok
  | ok pairs =>
    refine ⟨b1, b2, b3, b4, b5, b6, pairs, rfl, rfl, rfl, rfl, rfl, rfl, hres, ?_, ?_⟩
    · rw [heq] at hok
      simp only [generate_report, hres] at hok
      exact (Except.ok.inj hok).symm
    · rw [heq]
      simp only [generate_report, hres]
      cases pk <;> rfl
/-! ### Claims -/

/-- C1: when both `amass.txt` and `subfinder.txt` exist in the output
directory, `combine_subdomains` writes to `subdominios.txt` exactly the
first-occurrence dedup of the first input's lines followed by the second
input's lines; the dedup keeps the first occurrence across both inputs, so
the output is the first input's deduplicated lines followed by those lines of
the second input not already emitted (in order), and for inputs
`A = [a, b, a]`, `B = [b, c]` the result is `[a, b, c]`. -/
theorem combine_subdomains_merge_spec (st : St) (output_dir A B : String)
    (hA : st.files (output_dir ++ "/amass.txt") = some A)
    (hB : st.files (output_dir ++ "/subfinder.txt") = some B) :
    (combine_subdomains st output_dir).files (output_dir ++ "/subdominios.txt")
      = some (unlines (dedupFirst (splitlines A ++ splitlines B)))
    ∧ dedupFirst (splitlines A ++ splitlines B)
      = dedupFirst (splitlines A) ++ dedupFirstAux (splitlines A) (splitlines B)
    ∧ dedupFirst (["a", "b", "a"] ++ ["b", "c"]) = ["a", "b", "c"] := by
  refine ⟨?_, ?_, by decide⟩
  · simp [combine_subdomains, hA, hB, linesOpt]
  · have h := dedupFirstAux_append (splitlines A) (splitlines B) []
    rw [List.append_nil] at h
    exact h

/-- Witness for C1 at `A = "a\nb\na\n"`, `B = "b\nc\n"`: the merged file
holds exactly the lines `a`, `b`, `c`. -/
theorem combine_subdomains_merge_spec_witness :
    (combine_subdomains mergeDemoSt "out").files ("out" ++ "/subdominios.txt")
      = some "a\nb\nc\n" :=
  ((combine_subdomains_merge_spec mergeDemoSt "out" "a\nb\na\n" "b\nc\n" rfl rfl).1).trans
    (by decide)

/-- C2 counterexample: the claim says `run_command` never raises, absorbing a
missing executable; but with no executable found, `subprocess.run` raises
`FileNotFoundError` even with `check=False`, so the call returns an error,
not the command's output text. -/
theorem run_command_missing_executable_cex :
    (run_command noExecEnv ["amass", "enum", "-d", "example.com"] emptySt).2
      = Except.error (OSErr.fileNotFound "amass") := rfl

/-- C2 (amended): for every command whose executable is found, `run_command`
returns the captured combined output and never raises, regardless of the exit
status (non-zero exit is absorbed by `check=False`); but when the executable
is missing, the process launch raises and the error propagates to the
caller. -/
theorem run_command_exit_status_spec (env : ProcEnv) (command : List String) (st : St) :
    (∀ b : ExecBehavior, env.find command = some b →
      (run_command env command st).2 = Except.ok b.output)
    ∧ (env.find command = none →
        (run_command env command st).2
          = Except.error (OSErr.fileNotFound (command.headD ""))) := by
  constructor
  · intro b hb
    simp [run_command, hb]
  · intro hn
    simp [run_command, hn]

/-- Witness for C2 (amended): a tool that exits with status 2 still has its
output returned with no error raised. -/
theorem run_command_exit_status_spec_witness :
    (run_command failEnv ["amass", "enum"] emptySt).2 = Except.ok "partial output" :=
  (run_command_exit_status_spec failEnv ["amass", "enum"] emptySt).1
    ⟨2, "partial output", []⟩ rfl

/-- C4: `combine_subdomains` never fails on missing inputs — the output file
`subdominios.txt` is always created, holding the dedup of whatever lines the
existing inputs contribute, a missing input contributing zero lines; with
both inputs missing the output is created empty, and with only the second
input present the output is exactly that input's (deduplicated) lines. -/
theorem combine_subdomains_missing_inputs_spec (st : St) (output_dir : String) :
    (combine_subdomains st output_dir).files (output_dir ++ "/subdominios.txt")
      = some (unlines (dedupFirst
          (linesOpt (st.files (output_dir ++ "/amass.txt"))
            ++ linesOpt (st.files (output_dir ++ "/subfinder.txt")))))
    ∧ (st.files (output_dir ++ "/amass.txt") = none →
        st.files (output_dir ++ "/subfinder.txt") = none →
        (combine_subdomains st output_dir).files (output_dir ++ "/subdominios.txt")
          = some "")
    ∧ (st.files (output_dir ++ "/amass.txt") = none →
        ∀ B, st.files (output_dir ++ "/subfinder.txt") = some B →
          (combine_subdomains st output_dir).files (output_dir ++ "/subdominios.txt")
            = some (unlines (dedupFirst (splitlines B)))) := by
  refine ⟨by simp [combine_subdomains], ?_, ?_⟩
  · intro hA hB
    simp [combine_subdomains, hA, hB, linesOpt, dedupFirst, dedupFirstAux, unlines,
      String.join]
  · intro hA B hB
    simp [combine_subdomains, hA, hB, linesOpt]

/-- Witness for C4 on the empty state: with neither input present the merge
still creates `subdominios.txt`, empty. -/
theorem combine_subdomains_missing_inputs_spec_witness :
    (combine_subdomains emptySt "out").files ("out" ++ "/subdominios.txt") = some "" :=
  (combine_subdomains_missing_inputs_spec emptySt "out").2.1 rfl rfl

/-- C6: the jinja-rendered document and the manually assembled document are
behaviorally equivalent: both consist of fixed chrome around the same
`<h1>` heading naming the domain, followed by the same subsections — one
`<h2>` title and one verbatim `<pre>` body per mapping entry, in mapping
order — and they differ only in separator strings made of whitespace. -/
theorem report_html_render_equiv (domain : String) (outputs : List (String × String)) :
    jinjaHtml domain outputs
      = jinjaChromeA ++ h1tag domain ++ jinjaInd
          ++ sectionsHtml jinjaInd jinjaInd jinjaInd outputs ++ jinjaChromeB
    ∧ manualHtml domain outputs
      = manualChromeA ++ h1tag domain ++ sectionsHtml "" "" "" outputs ++ manualChromeB
    ∧ onlyWs jinjaInd = true ∧ onlyWs "" = true :=
  ⟨jinjaHtml_decomp domain outputs, manualHtml_decomp domain outputs, by decide, by decide⟩

/-- C9: with an empty tool-output mapping, `generate_report` succeeds and the
HTML document it writes is exactly the fixed chrome around the heading naming
the domain — no tool subsections — in both rendering branches. -/
theorem generate_report_empty_outputs_spec (pk : PdfKit) (tmplAvail : Bool)
    (domain output_dir : String) (st : St) :
    (generate_report pk tmplAvail domain output_dir [] st).2
      = Except.ok (output_dir ++ "/" ++ domain ++ "_reporte.html")
    ∧ (generate_report pk tmplAvail domain output_dir [] st).1.files
        (output_dir ++ "/" ++ domain ++ "_reporte.html")
      = some (if tmplAvail then jinjaHtml domain [] else manualHtml domain [])
    ∧ jinjaHtml domain [] = jinjaChromeA ++ h1tag domain ++ jinjaInd ++ jinjaChromeB
    ∧ manualHtml domain [] = manualChromeA ++ h1tag domain ++ manualChromeB := by
  have hne : output_dir ++ "/" ++ domain ++ "_reporte.html"
      ≠ output_dir ++ "/" ++ domain ++ "_reporte.pdf" :=
    fun h => absurd (strCancelLeft h) (by decide)
  refine ⟨?_, ?_, ?_, ?_⟩
  · cases pk <;> simp [generate_report, resolveOuts]
  · cases pk <;> simp [generate_report, resolveOuts, hne]
  · simp [jinjaHtml, h1tag, jinjaChromeA, jinjaInd, jinjaChromeB, String.append_assoc,
      String.join]
    simp [← String.append_assoc]
  · simp [manualHtml, h1tag, manualChromeA, manualChromeB, String.append_assoc, String.join]

/-- C3: whenever every mapped file exists, `generate_report` succeeds,
leaving the rendered HTML at `<domain>_reporte.html` and some file at
`<domain>_reporte.pdf`; and when the PDF converter is unavailable
(`pdfkit is None`) or fails, no error propagates and the PDF location holds
the fixed placeholder string instead. -/
theorem generate_report_artifacts_spec (pk : PdfKit) (tmplAvail : Bool)
    (domain output_dir : String) (tool_outputs pairs : List (String × String)) (st : St)
    (h : resolveOuts st.files tool_outputs = Except.ok pairs) :
    (generate_report pk tmplAvail domain output_dir tool_outputs st).2
      = Except.ok (output_dir ++ "/" ++ domain ++ "_reporte.html")
    ∧ (generate_report pk tmplAvail domain output_dir tool_outputs st).1.files
        (output_dir ++ "/" ++ domain ++ "_reporte.html")
      = some (if tmplAvail then jinjaHtml domain pairs else manualHtml domain pairs)
    ∧ (∃ c, (generate_report pk tmplAvail domain output_dir tool_outputs st).1.files
        (output_dir ++ "/" ++ domain ++ "_reporte.pdf") = some c)
    ∧ ((pk = PdfKit.absent ∨ pk = PdfKit.failing) →
        (generate_report pk tmplAvail domain output_dir tool_outputs st).1.files
          (output_dir ++ "/" ++ domain ++ "_reporte.pdf")
          = some "PDF generation failed") := by
  have hne : output_dir ++ "/" ++ domain ++ "_reporte.html"
      ≠ output_dir ++ "/" ++ domain ++ "_reporte.pdf" :=
    fun hq => absurd (strCancelLeft hq) (by decide)
  refine ⟨?_, ?_, ?_, ?_⟩
  · cases pk <;> simp [generate_report, h]
  · cases pk <;> simp [generate_report, h, hne]
  · cases pk with
    | absent => exact ⟨"PDF generation failed", by simp [generate_report, h]⟩
    | failing => exact ⟨"PDF generation failed", by simp [generate_report, h]⟩
    | working conv =>
      exact ⟨conv (if tmplAvail = true then jinjaHtml domain pairs else manualHtml domain pairs),
        by simp [generate_report, h]⟩
  · rintro (hpk | hpk) <;> subst hpk <;> simp [generate_report, h]

/-- Witness for C3 with `pdfkit` absent: the placeholder is at the PDF
location and the HTML location holds the rendered document. -/
theorem generate_report_artifacts_spec_witness :
    (generate_report PdfKit.absent true "example.com" "out" [] emptySt).1.files
      ("out" ++ "/" ++ "example.com" ++ "_reporte.pdf") = some "PDF generation failed" :=
  (generate_report_artifacts_spec PdfKit.absent true "example.com" "out" [] [] emptySt
    rfl).2.2.2 (Or.inl rfl)

/-- C10: when the mapping contains a path whose file does not exist, the read
fails and the error propagates out of `generate_report`, with the state
untouched — in particular no HTML artifact is written, unlike the absorbed
PDF-conversion failure. -/
theorem generate_report_missing_file_raises (pk : PdfKit) (tmplAvail : Bool)
    (domain output_dir : String) (tool_outputs : List (String × String)) (st : St)
    (h : ∃ nc ∈ tool_outputs, st.files nc.2 = none) :
    ∃ e, generate_report pk tmplAvail domain output_dir tool_outputs st
      = (st, Except.error e) := by
  obtain ⟨e, he⟩ := resolveOuts_error_of_missing st.files tool_outputs h
  exact ⟨e, by simp [generate_report, he]⟩

/-- Witness for C10: a mapping pointing at a missing file makes
`generate_report` raise and leave the (empty) state unchanged. -/
theorem generate_report_missing_file_raises_witness :
    ∃ e, generate_report PdfKit.absent true "example.com" "out"
      [("amass", "out/amass.txt")] emptySt = (emptySt, Except.error e) :=
  generate_report_missing_file_raises PdfKit.absent true "example.com" "out"
    [("amass", "out/amass.txt")] emptySt ⟨("amass", "out/amass.txt"), List.mem_cons_self _ _, rfl⟩

/-- The demo environment honours its output-path instructions. -/
theorem demoEnv_wellBehaved : envWellBehavedFor demoEnv "example.com" := by
  refine ⟨?_, ?_, ?_, ?_, ?_, ?_⟩
  · intro b hb
    have hb2 : (some (⟨0, "", [(amassPath "example.com",
        "a.example.com\nb.example.com\n")]⟩ : ExecBehavior)) = some b := hb
    cases hb2
    intro pc hpc
    rw [List.mem_singleton] at hpc
    subst hpc
    exact Or.inl rfl
  · intro b hb
    have hb2 : (some (⟨0, "dns info", []⟩ : ExecBehavior)) = some b := hb
    cases hb2
    rfl
  · intro b hb
    have hb2 : (some (⟨0, "", [(subfinderPath "example.com",
        "b.example.com\nc.example.com\n")]⟩ : ExecBehavior)) = some b := hb
    cases hb2
    intro pc hpc
    rw [List.mem_singleton] at hpc
    subst hpc
    exact Or.inl rfl
  · intro b hb
    have hb2 : (some (⟨1, "", [(vivosPath "example.com",
        "https://a.example.com\n")]⟩ : ExecBehavior)) = some b := hb
    cases hb2
    intro pc hpc
    rw [List.mem_singleton] at hpc
    subst hpc
    exact Or.inl rfl
  · intro b hb
    have hb2 : (some (⟨0, "shots ok", []⟩ : ExecBehavior)) = some b := hb
    cases hb2
    intro pc hpc
    exact absurd hpc (List.not_mem_nil _)
  · intro b hb
    have hb2 : (some (⟨0, "", [(nmapPath "example.com", "scan\n")]⟩ : ExecBehavior)) = some b := hb
    cases hb2
    intro pc hpc
    rw [List.mem_singleton] at hpc
    subst hpc
    exact Or.inl rfl

/-- C5: in every successful run, the keys of the result mapping handed to the
report generator are exactly the tool names in invocation order — amass,
dnsrecon, subfinder, subdominios, vivos, gowitness, nmap — and the HTML
report written contains one `<h2>` subsection per entry, titled with the tool
name, in that same order. -/
theorem run_all_results_report_spec (env : ProcEnv) (pk : PdfKit) (tA : Bool)
    (d : String) (st : St) (res : List (String × String))
    (hok : (run_all env pk tA d st).2 = Except.ok res) :
    res.map Prod.fst
      = ["amass", "dnsrecon", "subfinder", "subdominios", "vivos", "gowitness", "nmap"]
    ∧ ∃ pairs : List (String × String),
        pairs.map Prod.fst
          = ["amass", "dnsrecon", "subfinder", "subdominios", "vivos", "gowitness", "nmap"]
        ∧ (run_all env pk tA d st).1.files (htmlPath d)
            = some (if tA = true then jinjaHtml d pairs else manualHtml d pairs)
        ∧ containsInOrder (if tA = true then jinjaHtml d pairs else manualHtml d pairs)
            (["amass", "dnsrecon", "subfinder", "subdominios", "vivos", "gowitness",
              "nmap"].map h2tag) := by
  obtain ⟨b1, b2, b3, b4, b5, b6, pairs, h1, h2, h3, h4, h5, h6, hres, hres2, heq⟩ :=
    run_all_inv env pk tA d st res hok
  have hfst : pairs.map Prod.fst
      = ["amass", "dnsrecon", "subfinder", "subdominios", "vivos", "gowitness", "nmap"] := by
    rw [resolveOuts_map_fst _ (resultsList d) pairs hres]
    rfl
  refine ⟨?_, pairs, hfst, ?_, ?_⟩
  · rw [hres2]; rfl
  · rw [heq]
    have hne : htmlPath d ≠ pdfPath d :=
      fixedNe ((outDirOf d ++ "/") ++ d) "_reporte.html" "_reporte.pdf" (by decide)
    simp only [St.writeFile_files, if_neg hne, if_pos rfl, ite_true]
  · have hmap : (["amass", "dnsrecon", "subfinder", "subdominios", "vivos", "gowitness",
        "nmap"].map h2tag) = pairs.map (fun nc => h2tag nc.1) := by
      rw [← hfst, List.map_map]
      rfl
    rw [hmap]
    cases tA with
    | true =>
      simp only [ite_true]
      rw [jinjaHtml_decomp]
      have hassoc : jinjaChromeA ++ h1tag d ++ jinjaInd
            ++ sectionsHtml jinjaInd jinjaInd jinjaInd pairs ++ jinjaChromeB
          = (jinjaChromeA ++ h1tag d ++ jinjaInd)
            ++ (sectionsHtml jinjaInd jinjaInd jinjaInd pairs ++ jinjaChromeB) := by
        simp only [String.append_assoc]
      rw [hassoc]
      exact containsInOrder_append_left _ _ _
        (containsInOrder_sections jinjaInd jinjaInd jinjaInd jinjaChromeB pairs)
    | false =>
      simp only [Bool.false_eq_true, ite_false]
      rw [manualHtml_decomp]
      have hassoc : manualChromeA ++ h1tag d ++ sectionsHtml "" "" "" pairs ++ manualChromeB
          = (manualChromeA ++ h1tag d)
            ++ (sectionsHtml "" "" "" pairs ++ manualChromeB) := by
        simp only [String.append_assoc]
      rw [hassoc]
      exact containsInOrder_append_left _ _ _
        (containsInOrder_sections "" "" "" manualChromeB pairs)

/-- Witness for C5 on a concrete successful run over `demoEnv`. -/
theorem run_all_results_report_spec_witness :
    ∃ pairs : List (String × String),
      pairs.map Prod.fst
        = ["amass", "dnsrecon", "subfinder", "subdominios", "vivos", "gowitness", "nmap"]
      ∧ (run_all demoEnv PdfKit.absent true "example.com" emptySt).1.files
          (htmlPath "example.com")
          = some (if true = true then jinjaHtml "example.com" pairs
              else manualHtml "example.com" pairs)
      ∧ containsInOrder (if true = true then jinjaHtml "example.com" pairs
            else manualHtml "example.com" pairs)
          (["amass", "dnsrecon", "subfinder", "subdominios", "vivos", "gowitness",
            "nmap"].map h2tag) :=
  (run_all_results_report_spec demoEnv PdfKit.absent true "example.com" emptySt
    (resultsList "example.com") rfl).2

/-- C8: in every successful run of a well-behaved environment, the first
event is the creation of the output directory `<domain>-recon` (so it exists
before any tool is invoked or writes into it), every path subsequently
written or created lies under that directory, and the directory exists at the
end (`exist_ok=True`: created if absent, reused if present). -/
theorem run_all_output_dir_spec (env : ProcEnv) (pk : PdfKit) (tA : Bool)
    (d : String) (st : St) (res : List (String × String))
    (hok : (run_all env pk tA d st).2 = Except.ok res)
    (hWB : envWellBehavedFor env d) :
    ∃ rest, (run_all env pk tA d st).1.trace
        = st.trace ++ (Event.mkdirEv (outDirOf d) :: rest)
      ∧ (∀ p, (Event.writeEv p ∈ rest ∨ Event.toolWriteEv p ∈ rest ∨ Event.mkdirEv p ∈ rest)
          → isUnder (outDirOf d) p)
      ∧ (run_all env pk tA d st).1.dirs (outDirOf d) = true := by
  obtain ⟨b1, b2, b3, b4, b5, b6, pairs, h1, h2, h3, h4, h5, h6, hres, hres2, heq⟩ :=
    run_all_inv env pk tA d st res hok
  obtain ⟨hw1, hw2, hw3, hw4, hw5, hw6⟩ := hWB
  have h1w := hw1 b1 h1
  have h2w := hw2 b2 h2
  have h3w := hw3 b3 h3
  have h4w := hw4 b4 h4
  have h5w := hw5 b5 h5
  have h6w := hw6 b6 h6
  have hbase : ∀ (t s q : String), "/" ++ t = s →
      (q = outDirOf d ++ s ∨ isUnder (outDirOf d ++ s) q) → isUnder (outDirOf d) q := by
    intro t s q hts hq
    rcases hq with rfl | hq
    · exact isUnder_fixed _ t s hts
    · obtain ⟨u, hu⟩ := hq
      rw [hu]
      exact isUnder_step _ _ u (isUnder_fixed _ t s hts)
  rw [heq]
  refine ⟨(Event.execEv (amassCmd d) :: b1.writes.map (fun pc => Event.toolWriteEv pc.1)
      ++ (Event.execEv (dnsreconCmd d) :: b2.writes.map (fun pc => Event.toolWriteEv pc.1))
      ++ [Event.writeEv (dnsreconPath d)]
      ++ (Event.execEv (subfinderCmd d) :: b3.writes.map (fun pc => Event.toolWriteEv pc.1))
      ++ [Event.writeEv (subdomPath d)]
      ++ (Event.execEv (httpxCmd d) :: b4.writes.map (fun pc => Event.toolWriteEv pc.1))
      ++ [Event.mkdirEv (shotsDir d)]
      ++ (Event.execEv (gowitnessCmd d) :: b5.writes.map (fun pc => Event.toolWriteEv pc.1))
      ++ [Event.writeEv (gowitnessLogPath d)]
      ++ (Event.execEv (nmapCmd d) :: b6.writes.map (fun pc => Event.toolWriteEv pc.1))
      ++ [Event.writeEv (htmlPath d), Event.writeEv (pdfPath d)]), ?_, ?_, ?_⟩
  · simp only [St.writeFile_trace, toolPhase_trace, List.append_assoc, List.cons_append,
      List.nil_append]
  · intro p hp
    rcases hp with hp | hp | hp <;>
      simp [List.mem_append, List.mem_cons, List.mem_map] at hp
    · rcases hp with rfl | rfl | rfl | rfl | rfl
      · exact isUnder_fixed _ "dnsrecon.txt" "/dnsrecon.txt" rfl
      · exact isUnder_fixed _ "subdominios.txt" "/subdominios.txt" rfl
      · exact isUnder_fixed _ "gowitness.txt" "/gowitness.txt" rfl
      · exact ⟨d ++ "_reporte.html", String.append_assoc _ _ _⟩
      · exact ⟨d ++ "_reporte.pdf", String.append_assoc _ _ _⟩
    · rcases hp with ⟨x, hx⟩ | ⟨x, hx⟩ | ⟨x, hx⟩ | ⟨x, hx⟩ | ⟨x, hx⟩ | ⟨x, hx⟩
      · exact hbase "amass.txt" "/amass.txt" p rfl (h1w (p, x) hx)
      · rw [h2w] at hx
        exact absurd hx (List.not_mem_nil _)
      · exact hbase "subfinder.txt" "/subfinder.txt" p rfl (h3w (p, x) hx)
      · exact hbase "vivos.txt" "/vivos.txt" p rfl (h4w (p, x) hx)
      · exact hbase "gowitness/shots" "/gowitness/shots" p rfl (h5w (p, x) hx)
      · exact hbase "nmap.txt" "/nmap.txt" p rfl (h6w (p, x) hx)
    · rw [hp]
      exact isUnder_fixed _ "gowitness/shots" "/gowitness/shots" rfl
  · simp only [St.writeFile_dirs, toolPhase_dirs_outDir]

/-- Witness for C8 on a concrete successful run over `demoEnv`. -/
theorem run_all_output_dir_spec_witness :
    ∃ rest, (run_all demoEnv PdfKit.absent true "example.com" emptySt).1.trace
        = emptySt.trace ++ (Event.mkdirEv (outDirOf "example.com") :: rest)
      ∧ (∀ p, (Event.writeEv p ∈ rest ∨ Event.toolWriteEv p ∈ rest
            ∨ Event.mkdirEv p ∈ rest)
          → isUnder (outDirOf "example.com") p)
      ∧ (run_all demoEnv PdfKit.absent true "example.com" emptySt).1.dirs
          (outDirOf "example.com") = true :=
  run_all_output_dir_spec demoEnv PdfKit.absent true "example.com" emptySt
    (resultsList "example.com") rfl demoEnv_wellBehaved

/-- C7: re-running the pipeline on the same domain over the same well-behaved
environment is idempotent: the second run also succeeds with the same result
mapping, and every artifact — the seven tool outputs, `subdominios.txt`
included, the HTML report and the PDF — is recreated at the same
deterministic path with the same content, accumulating no duplicate or stale
content from the first run. -/
theorem run_all_rerun_idempotent (env : ProcEnv) (pk : PdfKit) (tA : Bool)
    (d : String) (st st1 : St) (res1 : List (String × String))
    (hWB : envWellBehavedFor env d)
    (hrun : run_all env pk tA d st = (st1, Except.ok res1)) :
    ∃ st2, run_all env pk tA d st1 = (st2, Except.ok res1)
      ∧ ∀ p ∈ [amassPath d, dnsreconPath d, subfinderPath d, subdomPath d, vivosPath d,
          gowitnessLogPath d, nmapPath d, htmlPath d, pdfPath d],
          st2.files p = st1.files p := by
  have hok : (run_all env pk tA d st).2 = Except.ok res1 := by rw [hrun]
  obtain ⟨b1, b2, b3, b4, b5, b6, pairs, h1, h2, h3, h4, h5, h6, hres, hres2, heq⟩ :=
    run_all_inv env pk tA d st res1 hok
  obtain ⟨hw1, hw2, hw3, hw4, hw5, hw6⟩ := hWB
  have h1w := hw1 b1 h1
  have h2w := hw2 b2 h2
  have h3w := hw3 b3 h3
  have h4w := hw4 b4 h4
  have h5w := hw5 b5 h5
  have h6w := hw6 b6 h6
  have hst1 : st1 = ((toolPhaseSt b1 b2 b3 b4 b5 b6 d st).writeFile (htmlPath d)
      (if tA = true then jinjaHtml d pairs else manualHtml d pairs)).writeFile
      (pdfPath d) (pdfContent pk tA d pairs) := by
    have hpair := hrun.symm.trans heq
    exact ((Prod.mk.injEq _ _ _ _).mp hpair).1
  have neAH : amassPath d ≠ htmlPath d :=
    fixedNe_report (outDirOf d) "amass.txt" d "_reporte.html" (by decide)
  have neAP : amassPath d ≠ pdfPath d :=
    fixedNe_report (outDirOf d) "amass.txt" d "_reporte.pdf" (by decide)
  have neDH : dnsreconPath d ≠ htmlPath d :=
    fixedNe_report (outDirOf d) "dnsrecon.txt" d "_reporte.html" (by decide)
  have neDP : dnsreconPath d ≠ pdfPath d :=
    fixedNe_report (outDirOf d) "dnsrecon.txt" d "_reporte.pdf" (by decide)
  have neSH : subfinderPath d ≠ htmlPath d :=
    fixedNe_report (outDirOf d) "subfinder.txt" d "_reporte.html" (by decide)
  have neSP : subfinderPath d ≠ pdfPath d :=
    fixedNe_report (outDirOf d) "subfinder.txt" d "_reporte.pdf" (by decide)
  have neSubH : subdomPath d ≠ htmlPath d :=
    fixedNe_report (outDirOf d) "subdominios.txt" d "_reporte.html" (by decide)
  have neSubP : subdomPath d ≠ pdfPath d :=
    fixedNe_report (outDirOf d) "subdominios.txt" d "_reporte.pdf" (by decide)
  have neVH : vivosPath d ≠ htmlPath d :=
    fixedNe_report (outDirOf d) "vivos.txt" d "_reporte.html" (by decide)
  have neVP : vivosPath d ≠ pdfPath d :=
    fixedNe_report (outDirOf d) "vivos.txt" d "_reporte.pdf" (by decide)
  have neGH : gowitnessLogPath d ≠ htmlPath d :=
    fixedNe_report (outDirOf d) "gowitness.txt" d "_reporte.html" (by decide)
  have neGP : gowitnessLogPath d ≠ pdfPath d :=
    fixedNe_report (outDirOf d) "gowitness.txt" d "_reporte.pdf" (by decide)
  have neNH : nmapPath d ≠ htmlPath d :=
    fixedNe_report (outDirOf d) "nmap.txt" d "_reporte.html" (by decide)
  have neNP : nmapPath d ≠ pdfPath d :=
    fixedNe_report (outDirOf d) "nmap.txt" d "_reporte.pdf" (by decide)
  have neHP : htmlPath d ≠ pdfPath d :=
    fixedNe ((outDirOf d ++ "/") ++ d) "_reporte.html" "_reporte.pdf" (by decide)
  have hs1 : ∀ q, q ≠ htmlPath d → q ≠ pdfPath d →
      st1.files q = (toolPhaseSt b1 b2 b3 b4 b5 b6 d st).files q := by
    intro q hq1 hq2
    rw [hst1]
    simp only [St.writeFile_files, if_neg hq1, if_neg hq2]
  have hcA := toolPhase_files_amass b1 b2 b3 b4 b5 b6 d st h1w h2w h3w h4w h5w h6w
  have hcA1 := toolPhase_files_amass b1 b2 b3 b4 b5 b6 d st1 h1w h2w h3w h4w h5w h6w
  have hcD := toolPhase_files_dnsrecon b1 b2 b3 b4 b5 b6 d st h1w h2w h3w h4w h5w h6w
  have hcD1 := toolPhase_files_dnsrecon b1 b2 b3 b4 b5 b6 d st1 h1w h2w h3w h4w h5w h6w
  have hcS := toolPhase_files_subfinder b1 b2 b3 b4 b5 b6 d st h1w h2w h3w h4w h5w h6w
  have hcS1 := toolPhase_files_subfinder b1 b2 b3 b4 b5 b6 d st1 h1w h2w h3w h4w h5w h6w
  have hcSub := toolPhase_files_subdom b1 b2 b3 b4 b5 b6 d st h1w h2w h3w h4w h5w h6w
  have hcSub1 := toolPhase_files_subdom b1 b2 b3 b4 b5 b6 d st1 h1w h2w h3w h4w h5w h6w
  have hcV := toolPhase_files_vivos b1 b2 b3 b4 b5 b6 d st h1w h2w h3w h4w h5w h6w
  have hcV1 := toolPhase_files_vivos b1 b2 b3 b4 b5 b6 d st1 h1w h2w h3w h4w h5w h6w
  have hcG := toolPhase_files_gwlog b1 b2 b3 b4 b5 b6 d st h1w h2w h3w h4w h5w h6w
  have hcG1 := toolPhase_files_gwlog b1 b2 b3 b4 b5 b6 d st1 h1w h2w h3w h4w h5w h6w
  have hcN := toolPhase_files_nmap b1 b2 b3 b4 b5 b6 d st h1w h2w h3w h4w h5w h6w
  have hcN1 := toolPhase_files_nmap b1 b2 b3 b4 b5 b6 d st1 h1w h2w h3w h4w h5w h6w
  have stA := (hs1 _ neAH neAP).trans hcA
  have stS := (hs1 _ neSH neSP).trans hcS
  have stV := (hs1 _ neVH neVP).trans hcV
  have stN := (hs1 _ neNH neNP).trans hcN
  have eqA : (toolPhaseSt b1 b2 b3 b4 b5 b6 d st1).files (amassPath d)
      = (toolPhaseSt b1 b2 b3 b4 b5 b6 d st).files (amassPath d) := by
    rw [hcA1, stA, optOr_idem, ← hcA]
  have eqS : (toolPhaseSt b1 b2 b3 b4 b5 b6 d st1).files (subfinderPath d)
      = (toolPhaseSt b1 b2 b3 b4 b5 b6 d st).files (subfinderPath d) := by
    rw [hcS1, stS, optOr_idem, ← hcS]
  have eqV : (toolPhaseSt b1 b2 b3 b4 b5 b6 d st1).files (vivosPath d)
      = (toolPhaseSt b1 b2 b3 b4 b5 b6 d st).files (vivosPath d) := by
    rw [hcV1, stV, optOr_idem, ← hcV]
  have eqN : (toolPhaseSt b1 b2 b3 b4 b5 b6 d st1).files (nmapPath d)
      = (toolPhaseSt b1 b2 b3 b4 b5 b6 d st).files (nmapPath d) := by
    rw [hcN1, stN, optOr_idem, ← hcN]
  have eqD : (toolPhaseSt b1 b2 b3 b4 b5 b6 d st1).files (dnsreconPath d)
      = (toolPhaseSt b1 b2 b3 b4 b5 b6 d st).files (dnsreconPath d) := by
    rw [hcD1, ← hcD]
  have eqG : (toolPhaseSt b1 b2 b3 b4 b5 b6 d st1).files (gowitnessLogPath d)
      = (toolPhaseSt b1 b2 b3 b4 b5 b6 d st).files (gowitnessLogPath d) := by
    rw [hcG1, ← hcG]
  have eqSub : (toolPhaseSt b1 b2 b3 b4 b5 b6 d st1).files (subdomPath d)
      = (toolPhaseSt b1 b2 b3 b4 b5 b6 d st).files (subdomPath d) := by
    rw [hcSub1, stA, stS]
    simp only [optOr_idem]
    exact hcSub.symm
  have hcongr : ∀ nc ∈ resultsList d,
      (toolPhaseSt b1 b2 b3 b4 b5 b6 d st1).files nc.2
        = (toolPhaseSt b1 b2 b3 b4 b5 b6 d st).files nc.2 := by
    intro nc hnc
    simp only [resultsList, List.mem_cons, List.not_mem_nil, or_false] at hnc
    rcases hnc with rfl | rfl | rfl | rfl | rfl | rfl | rfl
    · exact eqA
    · exact eqD
    · exact eqS
    · exact eqSub
    · exact eqV
    · exact eqG
    · exact eqN
  have hresolve : resolveOuts (toolPhaseSt b1 b2 b3 b4 b5 b6 d st1).files (resultsList d)
      = Except.ok pairs := by
    rw [resolveOuts_congr _ _ (resultsList d) hcongr]
    exact hres
  have heq2 := run_all_eq env pk tA d st1 b1 b2 b3 b4 b5 b6 h1 h2 h3 h4 h5 h6
  refine ⟨((toolPhaseSt b1 b2 b3 b4 b5 b6 d st1).writeFile (htmlPath d)
      (if tA = true then jinjaHtml d pairs else manualHtml d pairs)).writeFile
      (pdfPath d) (pdfContent pk tA d pairs), ?_, ?_⟩
  · rw [heq2]
    simp only [generate_report, hresolve]
    rw [hres2]
    cases pk <;> rfl
  · intro p hp
    simp only [List.mem_cons, List.not_mem_nil, or_false] at hp
    rcases hp with rfl | rfl | rfl | rfl | rfl | rfl | rfl | rfl | rfl
    · simp only [St.writeFile_files, if_neg neAP, if_neg neAH]
      rw [eqA]
      exact (hs1 _ neAH neAP).symm
    · simp only [St.writeFile_files, if_neg neDP, if_neg neDH]
      rw [eqD]
      exact (hs1 _ neDH neDP).symm
    · simp only [St.writeFile_files, if_neg neSP, if_neg neSH]
      rw [eqS]
      exact (hs1 _ neSH neSP).symm
    · simp only [St.writeFile_files, if_neg neSubP, if_neg neSubH]
      rw [eqSub]
      exact (hs1 _ neSubH neSubP).symm
    · simp only [St.writeFile_files, if_neg neVP, if_neg neVH]
      rw [eqV]
      exact (hs1 _ neVH neVP).symm
    · simp only [St.writeFile_files, if_neg neGP, if_neg neGH]
      rw [eqG]
      exact (hs1 _ neGH neGP).symm
    · simp only [St.writeFile_files, if_neg neNP, if_neg neNH]
      rw [eqN]
      exact (hs1 _ neNH neNP).symm
    · rw [hst1]
      simp only [St.writeFile_files, if_neg neHP, if_pos rfl, ite_true]
    · rw [hst1]
      simp only [St.writeFile_files, if_pos rfl, ite_true]

/-- Witness for C7: a concrete second run over `demoEnv` starting from the
state the first run left behind. -/
theorem run_all_rerun_idempotent_witness :
    ∃ st2, run_all demoEnv PdfKit.absent true "example.com"
        (run_all demoEnv PdfKit.absent true "example.com" emptySt).1
        = (st2, Except.ok (resultsList "example.com"))
      ∧ ∀ p ∈ [amassPath "example.com", dnsreconPath "example.com",
          subfinderPath "example.com", subdomPath "example.com", vivosPath "example.com",
          gowitnessLogPath "example.com", nmapPath "example.com", htmlPath "example.com",
          pdfPath "example.com"],
          st2.files p
            = (run_all demoEnv PdfKit.absent true "example.com" emptySt).1.files p :=
  run_all_rerun_idempotent demoEnv PdfKit.absent true "example.com" emptySt
    (run_all demoEnv PdfKit.absent true "example.com" emptySt).1
    (resultsList "example.com") demoEnv_wellBehaved rfl

end SubTrace
